import Mathlib

/-!
Verification development for the jiv2 terminal image renderer.

The repository contains five small Rust programs (main.rs, braille.rs,
octant.rs, quadrant.rs, sextant.rs) that convert a decoded bitmap into
Unicode glyphs with ANSI true-color escapes.  This file shallowly embeds
the per-cell rendering pipelines.

Modelling conventions:
* `f32` arithmetic is modelled by exact rational arithmetic (`ℚ`).  The
  two transcendental primitives that `f32` provides (`powf`, `sqrt`) are
  abstracted into a `FloatOps` record; every concrete computation below
  feeds them only inputs on which the pipeline stays inside the exact
  (linear/rational) branches of the transfer functions, or quantifies
  over all `FloatOps` satisfying interval bounds that the real functions
  satisfy.
* The analytic round-trip claim about the color transfer functions is
  settled over `ℝ` (real-arithmetic model of the float formulas), in the
  final section of the file.
* Images are total functions with explicit width/height; the loops of the
  Rust code access pixels only in bounds.
-/

namespace Jiv

/-- Abstracted transcendental `f32` primitives: `powf base exponent` and
`sqrt`.  The Rust code applies them to nonnegative arguments only. -/
structure FloatOps where
  powf : ℚ → ℚ → ℚ
  sqrtf : ℚ → ℚ

/-- Interval facts about `powf`/`sqrt` that the real functions (and their
`f32` versions) satisfy on the arguments the renderers use:
`b ^ (12/5) ∈ [0,1]` for `b ∈ [0,1]`, `b ^ (5/12) ∈ [11/211, 1]` for
`b ∈ [0.0031308, 1]` (indeed `0.0031308 ^ (5/12) ≈ 0.0904 ≥ 11/211`), and
`sqrt x ∈ [0,1]` for `x ∈ [0,1]`. -/
def FloatOps.Valid (ops : FloatOps) : Prop :=
  (∀ b : ℚ, 0 ≤ b → b ≤ 1 → 0 ≤ ops.powf b (12/5) ∧ ops.powf b (12/5) ≤ 1) ∧
  (∀ b : ℚ, (31308 : ℚ)/10000000 ≤ b → b ≤ 1 →
      (11 : ℚ)/211 ≤ ops.powf b (5/12) ∧ ops.powf b (5/12) ≤ 1) ∧
  (∀ x : ℚ, 0 ≤ x → x ≤ 1 → 0 ≤ ops.sqrtf x ∧ ops.sqrtf x ≤ 1)

/-- Concrete instantiation of the abstract primitives used for evaluating
the pipelines on concrete inputs.  All concrete inputs below keep the
pipelines inside the linear branches of the transfer functions, so the
`powf` value is never observable; `sqrtf` is the constant `0.7085`, which
agrees with `sqrt (128/255) = 0.70849...` to the precision the dot-matrix
threshold comparison observes. -/
def testOps : FloatOps where
  powf := fun _ _ => 1/2
  sqrtf := fun _ => 1417/2000

theorem testOps_valid : testOps.Valid := by
  refine ⟨fun b _ _ => ?_, fun b _ _ => ?_, fun x _ _ => ?_⟩ <;>
    constructor <;> norm_num [testOps]

/-- Rust `f32::clamp lo hi` (for `lo ≤ hi`). -/
def clampQ (x lo hi : ℚ) : ℚ := max lo (min x hi)

/-- Rust `f32::round` (half away from zero) on the nonnegative values the
renderers round. -/
def roundQ (q : ℚ) : ℤ := ⌊q + 1/2⌋

/-- Rust `as i16` float-to-integer cast: truncation toward zero. -/
def truncQ (q : ℚ) : ℤ := if 0 ≤ q then ⌊q⌋ else -⌊-q⌋

/-- Shared final conversion `(x.clamp(0.0,1.0) * 255.0).round() as u8`. -/
def toU8 (q : ℚ) : ℕ := (roundQ (clampQ q 0 1 * 255)).toNat

/-- `srgb_to_linear` of the Rust sources: piecewise sRGB decoding, the
power branch going through the abstract `powf` with exponent `2.4 = 12/5`. -/
def srgb_to_linear (ops : FloatOps) (c : ℚ) : ℚ :=
  if c ≤ (4045 : ℚ)/100000 then c / (1292/100)
  else ops.powf ((c + 55/1000) / (1055/1000)) (12/5)

/-- `linear_to_srgb` of the Rust sources: piecewise sRGB encoding, the
power branch going through the abstract `powf` with exponent `1/2.4 = 5/12`. -/
def linear_to_srgb (ops : FloatOps) (c : ℚ) : ℚ :=
  if c ≤ (31308 : ℚ)/10000000 then (1292/100) * c
  else (1055/1000) * ops.powf c (5/12) - 55/1000

/-- Decoded, resized bitmap: total pixel function with explicit
dimensions; channels are the 8-bit values of the RGBA8 buffer. -/
structure Image where
  width : ℕ
  height : ℕ
  pix : ℕ → ℕ → ℕ × ℕ × ℕ

/-- All-one-color image. -/
def uniformImg (w h v : ℕ) : Image := ⟨w, h, fun _ _ => (v, v, v)⟩

/-- Rust `(0..n).step_by(s)` as a list. -/
def stepRange (n s : ℕ) : List ℕ := (List.range ((n + s - 1) / s)).map (· * s)

/-- The per-channel error-diffusion buffer of octant.rs
(`Vec<Vec<(f32,f32,f32)>>`), as a total function of (x, y); the loops
only touch in-bounds positions. -/
abbrev Buf := ℕ → ℕ → ℚ × ℚ × ℚ

/-- Zero-initialized buffer (`vec![vec![(0.0,0.0,0.0); width]; height]`). -/
def zeroBuf : Buf := fun _ _ => (0, 0, 0)

/-- The `PixelData` struct of octant.rs / quadrant.rs / sextant.rs. -/
structure PixelData where
  luma : ℚ
  r : ℚ
  g : ℚ
  b : ℚ
  mask_bit : ℕ
deriving DecidableEq

/-- One rendered cell: either the bare space pushed for an empty pixel
window, or a glyph with 8-bit foreground/background colors. -/
inductive CellOut where
  | space : CellOut
  | colored (glyph : Char) (fg bg : ℕ × ℕ × ℕ) : CellOut
deriving DecidableEq

/-- Unicode scalar-value test of Rust `char::from_u32`. -/
def from_u32 (n : ℕ) : Option Char :=
  if n < 0xD800 ∨ (0xE000 ≤ n ∧ n < 0x110000) then some (Char.ofNat n) else none

/-- Cell-local mean luma (`luma_sum / pixels.len()`). -/
def lumaMean (pixels : List PixelData) : ℚ :=
  (pixels.map PixelData.luma).sum / (pixels.length : ℚ)

/-- Foreground group of a cell: sub-cells with luma at least the cell
mean (ties to foreground, `>=` in the sources). -/
def fgGroup (pixels : List PixelData) : List PixelData :=
  pixels.filter fun p => decide (lumaMean pixels ≤ p.luma)

/-- Background group: the complement of `fgGroup`. -/
def bgGroup (pixels : List PixelData) : List PixelData :=
  pixels.filter fun p => !decide (lumaMean pixels ≤ p.luma)

/-- The glyph mask: bitwise OR of the foreground sub-cells' bits. -/
def maskOf (pixels : List PixelData) : ℕ :=
  (fgGroup pixels).foldl (fun m p => m ||| p.mask_bit) 0

/-- Background color of a rendered cell, when one was emitted. -/
def CellOut.bgColor : CellOut → Option (ℕ × ℕ × ℕ)
  | .space => none
  | .colored _ _ bg => some bg

/-- Foreground color of a rendered cell, when one was emitted. -/
def CellOut.fgColor : CellOut → Option (ℕ × ℕ × ℕ)
  | .space => none
  | .colored _ fg _ => some fg

/-- Glyph of a rendered cell (space cells carry the bare space). -/
def CellOut.glyphOf : CellOut → Char
  | .space => ' '
  | .colored c _ _ => c

end Jiv

namespace Jiv.Quadrant

/-- The 16-entry quadrant table of quadrant.rs (bit order TL=1, TR=2,
BL=4, BR=8). -/
def QUADRANTS : List Char :=
  [' ', '▘', '▝', '▀', '▖', '▌', '▞', '▛', '▗', '▚', '▐', '▜', '▄', '▙', '▟', '█']

/-- The 2×2 sub-cell coordinates with their mask bits. -/
def coords : List (ℕ × ℕ × ℕ) := [(0, 0, 1), (1, 0, 2), (0, 1, 4), (1, 1, 8)]

/-- Pixel collection loop of quadrant.rs `render_image` (step 1): in-bounds
sub-cells with Rec. 709 luma. -/
def collectPixels (img : Image) (x y : ℕ) : List PixelData :=
  coords.filterMap fun c =>
    if x + c.1 < img.width ∧ y + c.2.1 < img.height then
      let p := img.pix (x + c.1) (y + c.2.1)
      let r : ℚ := (p.1 : ℚ) / 255
      let g : ℚ := (p.2.1 : ℚ) / 255
      let b : ℚ := (p.2.2 : ℚ) / 255
      some ⟨(2126/10000) * r + (7152/10000) * g + (722/10000) * b, r, g, b, c.2.2⟩
    else none

/-- `average_color` of quadrant.rs: averages in linear light, re-encodes,
rounds to 8 bits; black for an empty group. -/
def average_color (ops : FloatOps) (pixels : List PixelData) : ℕ × ℕ × ℕ :=
  if pixels = [] then (0, 0, 0)
  else
    let count : ℚ := pixels.length
    let r_avg := (pixels.map fun p => srgb_to_linear ops p.r).sum / count
    let g_avg := (pixels.map fun p => srgb_to_linear ops p.g).sum / count
    let b_avg := (pixels.map fun p => srgb_to_linear ops p.b).sum / count
    (toU8 (linear_to_srgb ops r_avg), toU8 (linear_to_srgb ops g_avg),
      toU8 (linear_to_srgb ops b_avg))

/-- Body of the per-cell part of quadrant.rs `render_image`: partition by
mean luma (ties to foreground), build the mask, emit glyph and colors. -/
def render_cell (ops : FloatOps) (img : Image) (x y : ℕ) : CellOut :=
  let pixels := collectPixels img x y
  if pixels = [] then .space
  else
    .colored ((QUADRANTS.get? (maskOf pixels)).getD ' ')
      (average_color ops (fgGroup pixels)) (average_color ops (bgGroup pixels))

/-- Full pass of quadrant.rs `render_image`: raster order over 2×2 cells.
There is no error-diffusion state in this renderer. -/
def render_image (ops : FloatOps) (img : Image) : List (List CellOut) :=
  (stepRange img.height 2).map fun y =>
    (stepRange img.width 2).map fun x => render_cell ops img x y

end Jiv.Quadrant

namespace Jiv.Sextant

/-- The 64-entry sextant table of sextant.rs (bit order TL=1, TR=2, ML=4,
MR=8, BL=16, BR=32).  Indices 21 and 42 are the pre-existing half-block
characters, 0 is space, 63 the full block; the rest are the Unicode
legacy-computing sextants U+1FB00–U+1FB3B. -/
def SEXTANTS : List Char :=
  [' ', '🬀', '🬁', '🬂', '🬃', '🬄', '🬅', '🬆', '🬇', '🬈', '🬉', '🬊', '🬋', '🬌', '🬍', '🬎',
   '🬏', '🬐', '🬑', '🬒', '🬓', '▌', '🬔', '🬕', '🬖', '🬗', '🬘', '🬙', '🬚', '🬛', '🬜', '🬝',
   '🬞', '🬟', '🬠', '🬡', '🬢', '🬣', '🬤', '🬥', '🬦', '🬧', '▐', '🬨', '🬩', '🬪', '🬫', '🬬',
   '🬭', '🬮', '🬯', '🬰', '🬱', '🬲', '🬳', '🬴', '🬵', '🬶', '🬷', '🬸', '🬹', '🬺', '🬻', '█']

/-- The 2×3 sub-cell coordinates with their mask bits. -/
def coords : List (ℕ × ℕ × ℕ) :=
  [(0, 0, 1), (1, 0, 2), (0, 1, 4), (1, 1, 8), (0, 2, 16), (1, 2, 32)]

/-- Pixel collection loop of sextant.rs `render_image`. -/
def collectPixels (img : Image) (x y : ℕ) : List PixelData :=
  coords.filterMap fun c =>
    if x + c.1 < img.width ∧ y + c.2.1 < img.height then
      let p := img.pix (x + c.1) (y + c.2.1)
      let r : ℚ := (p.1 : ℚ) / 255
      let g : ℚ := (p.2.1 : ℚ) / 255
      let b : ℚ := (p.2.2 : ℚ) / 255
      some ⟨(2126/10000) * r + (7152/10000) * g + (722/10000) * b, r, g, b, c.2.2⟩
    else none

/-- `average_color` of sextant.rs (identical to the quadrant one). -/
def average_color (ops : FloatOps) (pixels : List PixelData) : ℕ × ℕ × ℕ :=
  if pixels = [] then (0, 0, 0)
  else
    let count : ℚ := pixels.length
    let r_avg := (pixels.map fun p => srgb_to_linear ops p.r).sum / count
    let g_avg := (pixels.map fun p => srgb_to_linear ops p.g).sum / count
    let b_avg := (pixels.map fun p => srgb_to_linear ops p.b).sum / count
    (toU8 (linear_to_srgb ops r_avg), toU8 (linear_to_srgb ops g_avg),
      toU8 (linear_to_srgb ops b_avg))

/-- Body of the per-cell part of sextant.rs `render_image`. -/
def render_cell (ops : FloatOps) (img : Image) (x y : ℕ) : CellOut :=
  let pixels := collectPixels img x y
  if pixels = [] then .space
  else
    .colored ((SEXTANTS.get? (maskOf pixels)).getD ' ')
      (average_color ops (fgGroup pixels)) (average_color ops (bgGroup pixels))

/-- Full pass of sextant.rs `render_image`: raster order over 2×3 cells.
There is no error-diffusion state in this renderer. -/
def render_image (ops : FloatOps) (img : Image) : List (List CellOut) :=
  (stepRange img.height 3).map fun y =>
    (stepRange img.width 2).map fun x => render_cell ops img x y

end Jiv.Sextant

namespace Jiv.Braille

/-- The error-diffusion kernel literal of braille.rs (lines 166–170). -/
def diffusion_coords : List (ℤ × ℤ × ℚ) :=
  [(1, 0, 8/42), (2, 0, 4/42),
   (-2, 1, 2/42), (-1, 1, 4/42), (0, 1, 8/42), (1, 1, 4/42), (2, 1, 2/42),
   (-2, 2, 1/42), (-1, 2, 2/42), (0, 2, 4/42), (1, 2, 2/42), (2, 2, 1/42)]

end Jiv.Braille

namespace Jiv.Main

/-- The error-diffusion kernel literal of main.rs (lines 217–231). -/
def diffusion_coords : List (ℤ × ℤ × ℚ) :=
  [(1, 0, 8/42), (2, 0, 4/42),
   (-2, 1, 2/42), (-1, 1, 4/42), (0, 1, 8/42), (1, 1, 4/42), (2, 1, 2/42),
   (-2, 2, 1/42), (-1, 2, 2/42), (0, 2, 4/42), (1, 2, 2/42), (2, 2, 1/42)]

/-- The Braille dot coordinate table of main.rs (lines 193–196), in source
order. -/
def coords : List (ℕ × ℕ × ℕ) :=
  [(0, 0, 0x01), (0, 1, 0x02), (0, 2, 0x04), (1, 0, 0x08),
   (1, 1, 0x10), (1, 2, 0x20), (0, 3, 0x40), (1, 3, 0x80)]

end Jiv.Main

namespace Jiv

/-- The luma-only error-diffusion buffer of main.rs (`Vec<Vec<f32>>`). -/
abbrev BufL := ℕ → ℕ → ℚ

/-- Zero-initialized luma error buffer. -/
def zeroBufL : BufL := fun _ _ => 0

end Jiv

namespace Jiv.Main

/-- Error distribution of one main.rs sub-pixel (lines 232–238): adds
`error_value * factor` at every in-bounds kernel offset. -/
def addErrL (w h px py : ℕ) (e : ℤ) (buf : BufL) : BufL :=
  diffusion_coords.foldl
    (fun b t =>
      let nx : ℤ := (px : ℤ) + t.1
      let ny : ℤ := (py : ℤ) + t.2.1
      if 0 ≤ nx ∧ nx < (w : ℤ) ∧ 0 ≤ ny ∧ ny < (h : ℤ) then
        fun u v => if u = nx.toNat ∧ v = ny.toNat then b u v + (e : ℚ) * t.2.2 else b u v
      else b)
    buf

/-- One iteration of the main.rs mask loop (lines 198–239): threshold the
sqrt-encoded gray value plus pending error, set the mask bit, truncate
the luma to an integer and push the residual. -/
def maskStep (ops : FloatOps) (gray : ℕ → ℕ → ℕ) (w h : ℕ) (invert : Bool) (threshold : ℕ)
    (x y : ℕ) (acc : ℕ × BufL) (c : ℕ × ℕ × ℕ) : ℕ × BufL :=
  if x + c.1 < w ∧ y + c.2.1 < h then
    let luma := ops.sqrtf ((gray (x + c.1) (y + c.2.1) : ℚ) / 255) * 255 +
      acc.2 (x + c.1) (y + c.2.1)
    let is_on := if invert then decide (luma < (threshold : ℚ))
      else decide ((threshold : ℚ) < luma)
    let mask' := if is_on then acc.1 ||| c.2.2 else acc.1
    let err : ℤ := truncQ luma - (if is_on then 255 else 0)
    (mask', addErrL w h (x + c.1) (y + c.2.1) err acc.2)
  else acc

/-- One main.rs cell (lines 159–247): linear-light color average over the
2×4 window (count fixed at 8), sqrt-encoded output color, Braille mask by
thresholding with error diffusion. -/
def render_cell (ops : FloatOps) (img : Image) (gray : ℕ → ℕ → ℕ) (invert : Bool)
    (threshold : ℕ) (x y : ℕ) (buf : BufL) : (Char × (ℕ × ℕ × ℕ)) × BufL :=
  let sums := coords.foldl
    (fun (a : ℚ × ℚ × ℚ) c =>
      if x + c.1 < img.width ∧ y + c.2.1 < img.height then
        let p := img.pix (x + c.1) (y + c.2.1)
        (a.1 + srgb_to_linear ops ((p.1 : ℚ) / 255),
          a.2.1 + srgb_to_linear ops ((p.2.1 : ℚ) / 255),
          a.2.2 + srgb_to_linear ops ((p.2.2 : ℚ) / 255))
      else a)
    (0, 0, 0)
  let r_avg := sums.1 / 8
  let g_avg := sums.2.1 / 8
  let b_avg := sums.2.2 / 8
  let ms := coords.foldl (maskStep ops gray img.width img.height invert threshold x y) (0, buf)
  (((from_u32 (0x2800 + ms.1)).getD ' ',
      (toU8 (ops.sqrtf r_avg), toU8 (ops.sqrtf g_avg), toU8 (ops.sqrtf b_avg))), ms.2)

/-- One row of main.rs cells, threading the luma error buffer. -/
def renderRow (ops : FloatOps) (img : Image) (gray : ℕ → ℕ → ℕ) (invert : Bool)
    (threshold : ℕ) (y : ℕ) : List ℕ → BufL → List (Char × (ℕ × ℕ × ℕ)) × BufL
  | [], buf => ([], buf)
  | x :: xs, buf =>
    let pr := render_cell ops img gray invert threshold x y buf
    let rest := renderRow ops img gray invert threshold y xs pr.2
    (pr.1 :: rest.1, rest.2)

/-- All rows of main.rs cells. -/
def renderRows (ops : FloatOps) (img : Image) (gray : ℕ → ℕ → ℕ) (invert : Bool)
    (threshold : ℕ) : List ℕ → BufL → List (List (Char × (ℕ × ℕ × ℕ))) × BufL
  | [], buf => ([], buf)
  | y :: ys, buf =>
    let row := renderRow ops img gray invert threshold y (stepRange img.width 2) buf
    let rest := renderRows ops img gray invert threshold ys row.2
    (row.1 :: rest.1, rest.2)

/-- Full main.rs render loop: 2×4 cells in raster order over the color
image and its grayscale companion, starting from a zero buffer; returns
the emitted cells and the final error-diffusion buffer. -/
def renderPass (ops : FloatOps) (img : Image) (gray : ℕ → ℕ → ℕ) (invert : Bool)
    (threshold : ℕ) : List (List (Char × (ℕ × ℕ × ℕ))) × BufL :=
  renderRows ops img gray invert threshold (stepRange img.height 4) zeroBufL

end Jiv.Main

namespace Jiv

/-- Scan event of the main.rs render loop: a pixel read (luma fetch plus
pending-error fetch), or an error-diffusion write recording its source
pixel and target position. -/
inductive Ev where
  | rd (pos : ℕ × ℕ)
  | wr (src tgt : ℕ × ℕ)
deriving DecidableEq

end Jiv

namespace Jiv.Main

/-- Events of one sub-pixel iteration of the main.rs mask loop (lines
198–239): if the pixel is in bounds it is read, then the cell pushes a
write to every in-bounds kernel offset. -/
def pixelTrace (w h x y dx dy : ℕ) : List Ev :=
  if x + dx < w ∧ y + dy < h then
    Ev.rd (x + dx, y + dy) ::
      diffusion_coords.filterMap fun t =>
        let nx : ℤ := ((x + dx : ℕ) : ℤ) + t.1
        let ny : ℤ := ((y + dy : ℕ) : ℤ) + t.2.1
        if 0 ≤ nx ∧ nx < (w : ℤ) ∧ 0 ≤ ny ∧ ny < (h : ℤ) then
          some (Ev.wr (x + dx, y + dy) (nx.toNat, ny.toNat))
        else none
  else []

/-- Full event trace of a main.rs render pass: 2×4 cells in raster order,
sub-pixels in the source's `coords` order. -/
def renderTrace (w h : ℕ) : List Ev :=
  (stepRange h 4).flatMap fun y =>
    (stepRange w 2).flatMap fun x =>
      coords.flatMap fun c => pixelTrace w h x y c.1 c.2.1

/-- Checks the claim's scan discipline on a trace: every write must
target a position that no earlier event has read. -/
def freshWrites : List Ev → List (ℕ × ℕ) → Bool
  | [], _ => true
  | .rd p :: rest, seen => freshWrites rest (p :: seen)
  | .wr _ tgt :: rest, seen => !(seen.contains tgt) && freshWrites rest seen

end Jiv.Main

namespace Jiv.Octant

/-- The error-diffusion kernel literal of octant.rs (lines 174–188). -/
def diffusion_coords : List (ℤ × ℤ × ℚ) :=
  [(1, 0, 8/42), (2, 0, 4/42),
   (-2, 1, 2/42), (-1, 1, 4/42), (0, 1, 8/42), (1, 1, 4/42), (2, 1, 2/42),
   (-2, 2, 1/42), (-1, 2, 2/42), (0, 2, 4/42), (1, 2, 2/42), (2, 2, 1/42)]

/-- The Braille bit mapping of octant.rs (lines 101–106), in source order. -/
def coords : List (ℕ × ℕ × ℕ) :=
  [(0, 0, 0x01), (1, 0, 0x08),
   (0, 1, 0x02), (1, 1, 0x10),
   (0, 2, 0x04), (1, 2, 0x20),
   (0, 3, 0x40), (1, 3, 0x80)]

/-- Pixel collection loop of octant.rs `render_image` (lines 109–125):
adds the pending per-channel diffused error in linear light, re-encodes,
and computes the Rec. 709 luma of the re-encoded values. -/
def collectPixels (ops : FloatOps) (img : Image) (buf : Buf) (x y : ℕ) : List PixelData :=
  coords.filterMap fun c =>
    if x + c.1 < img.width ∧ y + c.2.1 < img.height then
      let p := img.pix (x + c.1) (y + c.2.1)
      let e := buf (x + c.1) (y + c.2.1)
      let r := linear_to_srgb ops (srgb_to_linear ops ((p.1 : ℚ) / 255) + e.1)
      let g := linear_to_srgb ops (srgb_to_linear ops ((p.2.1 : ℚ) / 255) + e.2.1)
      let b := linear_to_srgb ops (srgb_to_linear ops ((p.2.2 : ℚ) / 255) + e.2.2)
      some ⟨(2126/10000) * r + (7152/10000) * g + (722/10000) * b, r, g, b, c.2.2⟩
    else none

/-- `average_color_linear` of octant.rs: linear-light average of a group,
`none` for an empty group. -/
def average_color_linear (ops : FloatOps) (pixels : List PixelData) :
    Option (ℚ × ℚ × ℚ) :=
  if pixels = [] then none
  else
    let count : ℚ := pixels.length
    some ((pixels.map fun p => srgb_to_linear ops p.r).sum / count,
      (pixels.map fun p => srgb_to_linear ops p.g).sum / count,
      (pixels.map fun p => srgb_to_linear ops p.b).sum / count)

/-- `solve_dot_color` of octant.rs: per channel `clamp (2*target - bg) 0 1`. -/
def solve_dot_color (target bg : ℚ × ℚ × ℚ) : ℚ × ℚ × ℚ :=
  (clampQ (2 * target.1 - bg.1) 0 1,
   clampQ (2 * target.2.1 - bg.2.1) 0 1,
   clampQ (2 * target.2.2 - bg.2.2) 0 1)

/-- Rust `.round() as u8` of octant.rs lines 204–210 (no pre-clamp in the
source; the `as u8` cast saturates). -/
def octU8 (q : ℚ) : ℕ := (max 0 (min (roundQ (q * 255)) 255)).toNat

/-- Re-encoded 8-bit triple of a linear-light color. -/
def encodeU8 (ops : FloatOps) (c : ℚ × ℚ × ℚ) : ℕ × ℕ × ℕ :=
  (octU8 (linear_to_srgb ops c.1), octU8 (linear_to_srgb ops c.2.1),
    octU8 (linear_to_srgb ops c.2.2))

/-- Per-cell body of octant.rs `render_image` (lines 127–172, 203–217):
returns the emitted cell and the per-channel residual error
`target − mixed` that the cell then diffuses. -/
def cellOutErr (ops : FloatOps) (pixels : List PixelData) :
    CellOut × (ℚ × ℚ × ℚ) :=
  if pixels = [] then (.space, (0, 0, 0))
  else
    let braille_char := (from_u32 (0x2800 + maskOf pixels)).getD ' '
    let bg := (average_color_linear ops (bgGroup pixels)).getD
      ((average_color_linear ops (fgGroup pixels)).getD (0, 0, 0))
    let target := (average_color_linear ops (fgGroup pixels)).getD bg
    let final := solve_dot_color target bg
    let mixed := ((1/2) * clampQ final.1 0 1 + (1/2) * bg.1,
      (1/2) * clampQ final.2.1 0 1 + (1/2) * bg.2.1,
      (1/2) * clampQ final.2.2 0 1 + (1/2) * bg.2.2)
    ((.colored braille_char (encodeU8 ops final) (encodeU8 ops bg)),
      (target.1 - mixed.1, target.2.1 - mixed.2.1, target.2.2 - mixed.2.2))

/-- One cell of octant.rs `render_image`. -/
def render_cell (ops : FloatOps) (img : Image) (buf : Buf) (x y : ℕ) :
    CellOut × (ℚ × ℚ × ℚ) :=
  cellOutErr ops (collectPixels ops img buf x y)

/-- Inner tap loop of the diffusion step: adds `err * factor` at every
in-bounds kernel offset from pixel `(px, py)`. -/
def addErr (img : Image) (px py : ℕ) (err : ℚ × ℚ × ℚ) (buf : Buf) : Buf :=
  diffusion_coords.foldl
    (fun b t =>
      let nx : ℤ := (px : ℤ) + t.1
      let ny : ℤ := (py : ℤ) + t.2.1
      if 0 ≤ nx ∧ nx < (img.width : ℤ) ∧ 0 ≤ ny ∧ ny < (img.height : ℤ) then
        fun u v =>
          if u = nx.toNat ∧ v = ny.toNat then
            ((b u v).1 + err.1 * t.2.2, (b u v).2.1 + err.2.1 * t.2.2,
              (b u v).2.2 + err.2.2 * t.2.2)
          else b u v
      else b)
    buf

/-- Outer diffusion loop of octant.rs (lines 189–201): the cell's error is
pushed once from every in-bounds sub-cell position. -/
def diffuseCell (img : Image) (x y : ℕ) (err : ℚ × ℚ × ℚ) (buf : Buf) : Buf :=
  coords.foldl
    (fun b c =>
      if x + c.1 < img.width ∧ y + c.2.1 < img.height then
        addErr img (x + c.1) (y + c.2.1) err b
      else b)
    buf

/-- One row of cells, threading the error buffer left to right.  When the
pixel window is empty every sub-cell is out of bounds, so `diffuseCell`
leaves the buffer unchanged, matching the `continue` in the source. -/
def renderRow (ops : FloatOps) (img : Image) (y : ℕ) :
    List ℕ → Buf → List CellOut × Buf
  | [], buf => ([], buf)
  | x :: xs, buf =>
    let pr := render_cell ops img buf x y
    let rest := renderRow ops img y xs (diffuseCell img x y pr.2 buf)
    (pr.1 :: rest.1, rest.2)

/-- All cell rows in raster order, threading the error buffer. -/
def renderRows (ops : FloatOps) (img : Image) :
    List ℕ → Buf → List (List CellOut) × Buf
  | [], buf => ([], buf)
  | y :: ys, buf =>
    let row := renderRow ops img y (stepRange img.width 2) buf
    let rest := renderRows ops img ys row.2
    (row.1 :: rest.1, rest.2)

/-- Full pass of octant.rs `render_image`: 2×4 cells in raster order with
a freshly zero-initialized error-diffusion buffer. -/
def render_image (ops : FloatOps) (img : Image) : List (List CellOut) :=
  (renderRows ops img (stepRange img.height 4) zeroBuf).1

end Jiv.Octant

namespace Jiv.Quadrant

/-- Policy B for the quadrant renderer as §4.4/§4.2 of the specification
describe it, for comparison with `render_image` above: after choosing the
mask and the two group colors, the foreground is un-mixed
(`clamp (2*target - bg)`), the clamped re-mixed result is compared with
the target, and the per-channel residual is diffused forward through the
12-tap kernel in linear light (structured exactly like the one Policy B
renderer of the repository that does diffuse, octant.rs).  The pixel
window incorporates the previously diffused per-channel error. -/
def collectPixels_spec (ops : FloatOps) (img : Image) (buf : Buf) (x y : ℕ) :
    List PixelData :=
  coords.filterMap fun c =>
    if x + c.1 < img.width ∧ y + c.2.1 < img.height then
      let p := img.pix (x + c.1) (y + c.2.1)
      let e := buf (x + c.1) (y + c.2.1)
      let r := linear_to_srgb ops (srgb_to_linear ops ((p.1 : ℚ) / 255) + e.1)
      let g := linear_to_srgb ops (srgb_to_linear ops ((p.2.1 : ℚ) / 255) + e.2.1)
      let b := linear_to_srgb ops (srgb_to_linear ops ((p.2.2 : ℚ) / 255) + e.2.2)
      some ⟨(2126/10000) * r + (7152/10000) * g + (722/10000) * b, r, g, b, c.2.2⟩
    else none

/-- Per-cell body of the §4.4 Policy B description for the quadrant glyph
set: BTC un-mix, residual computation, quadrant glyph table. -/
def render_cell_spec (ops : FloatOps) (img : Image) (buf : Buf) (x y : ℕ) :
    CellOut × (ℚ × ℚ × ℚ) :=
  let pixels := collectPixels_spec ops img buf x y
  if pixels = [] then (.space, (0, 0, 0))
  else
    let glyph := (QUADRANTS.get? (maskOf pixels)).getD ' '
    let bg := (Octant.average_color_linear ops (bgGroup pixels)).getD
      ((Octant.average_color_linear ops (fgGroup pixels)).getD (0, 0, 0))
    let target := (Octant.average_color_linear ops (fgGroup pixels)).getD bg
    let final := Octant.solve_dot_color target bg
    let mixed := ((1/2) * clampQ final.1 0 1 + (1/2) * bg.1,
      (1/2) * clampQ final.2.1 0 1 + (1/2) * bg.2.1,
      (1/2) * clampQ final.2.2 0 1 + (1/2) * bg.2.2)
    ((.colored glyph (Octant.encodeU8 ops final) (Octant.encodeU8 ops bg)),
      (target.1 - mixed.1, target.2.1 - mixed.2.1, target.2.2 - mixed.2.2))

/-- Diffusion of a cell's residual from each in-bounds 2×2 sub-cell via
the §4.2 kernel. -/
def diffuseCell_spec (img : Image) (x y : ℕ) (err : ℚ × ℚ × ℚ) (buf : Buf) : Buf :=
  coords.foldl
    (fun b c =>
      if x + c.1 < img.width ∧ y + c.2.1 < img.height then
        Octant.addErr img (x + c.1) (y + c.2.1) err b
      else b)
    buf

/-- One row of §4.4-Policy-B quadrant cells, threading the error buffer. -/
def renderRow_spec (ops : FloatOps) (img : Image) (y : ℕ) :
    List ℕ → Buf → List CellOut × Buf
  | [], buf => ([], buf)
  | x :: xs, buf =>
    let pr := render_cell_spec ops img buf x y
    let rest := renderRow_spec ops img y xs (diffuseCell_spec img x y pr.2 buf)
    (pr.1 :: rest.1, rest.2)

/-- All rows of §4.4-Policy-B quadrant cells. -/
def renderRows_spec (ops : FloatOps) (img : Image) :
    List ℕ → Buf → List (List CellOut) × Buf
  | [], buf => ([], buf)
  | y :: ys, buf =>
    let row := renderRow_spec ops img y (stepRange img.width 2) buf
    let rest := renderRows_spec ops img ys row.2
    (row.1 :: rest.1, rest.2)

/-- Quadrant rendering as the specification describes it: full error
diffusion in linear light over 2×2 cells in raster order. -/
def render_image_spec (ops : FloatOps) (img : Image) : List (List CellOut) :=
  (renderRows_spec ops img (stepRange img.height 2) zeroBuf).1

end Jiv.Quadrant

namespace Jiv

/-- Pushing a zero error through the octant tap loop leaves the buffer
unchanged. -/
theorem octant_addErr_zero (img : Image) (px py : ℕ) (buf : Buf) :
    Octant.addErr img px py (0, 0, 0) buf = buf := by
  rw [Octant.addErr]
  generalize Octant.diffusion_coords = l
  induction l generalizing buf with
  | nil => rfl
  | cons t ts ih =>
    rw [List.foldl_cons]
    have hstep : ∀ b : Buf,
        (if 0 ≤ (px : ℤ) + t.1 ∧ (px : ℤ) + t.1 < (img.width : ℤ) ∧
            0 ≤ (py : ℤ) + t.2.1 ∧ (py : ℤ) + t.2.1 < (img.height : ℤ) then
          fun u v =>
            if u = ((px : ℤ) + t.1).toNat ∧ v = ((py : ℤ) + t.2.1).toNat then
              ((b u v).1 + ((0, 0, 0) : ℚ × ℚ × ℚ).1 * t.2.2,
                (b u v).2.1 + ((0, 0, 0) : ℚ × ℚ × ℚ).2.1 * t.2.2,
                (b u v).2.2 + ((0, 0, 0) : ℚ × ℚ × ℚ).2.2 * t.2.2)
            else b u v
        else b) = b := by
      intro b
      split
      · funext u v
        split <;> simp
      · rfl
    rw [hstep]
    exact ih buf

/-- Diffusing a zero cell error leaves the octant buffer unchanged. -/
theorem octant_diffuseCell_zero (img : Image) (x y : ℕ) (buf : Buf) :
    Octant.diffuseCell img x y (0, 0, 0) buf = buf := by
  rw [Octant.diffuseCell]
  generalize Octant.coords = l
  induction l generalizing buf with
  | nil => rfl
  | cons c cs ih =>
    rw [List.foldl_cons]
    have hstep :
        (if x + c.1 < img.width ∧ y + c.2.1 < img.height then
          Octant.addErr img (x + c.1) (y + c.2.1) (0, 0, 0) buf
        else buf) = buf := by
      split
      · exact octant_addErr_zero ..
      · rfl
    rw [hstep]
    exact ih buf

/-- Mapping a per-element-constant function over a list sums to length
times the constant. -/
theorem sum_map_const {α : Type} (l : List α) (f : α → ℚ) (k : ℚ)
    (h : ∀ a ∈ l, f a = k) : (l.map f).sum = l.length * k := by
  induction l with
  | nil => simp
  | cons a as ih =>
    simp only [List.map_cons, List.sum_cons, List.length_cons, h a (List.mem_cons_self a as)]
    rw [ih fun b hb => h b (List.mem_cons_of_mem a hb)]
    push_cast
    ring

/-- The mean luma of a constant-luma cell is that luma. -/
theorem lumaMean_const (pixels : List PixelData) (L : ℚ)
    (hne : pixels ≠ []) (h : ∀ p ∈ pixels, p.luma = L) : lumaMean pixels = L := by
  rw [lumaMean, sum_map_const pixels PixelData.luma L h]
  have hlen : (pixels.length : ℚ) ≠ 0 := by
    have := List.length_pos.mpr hne
    positivity
  field_simp

/-- In a constant-luma cell every sub-cell ties with the mean and lands
in the foreground group; the background group is empty. -/
theorem groups_const (pixels : List PixelData) (L : ℚ)
    (hne : pixels ≠ []) (h : ∀ p ∈ pixels, p.luma = L) :
    fgGroup pixels = pixels ∧ bgGroup pixels = [] := by
  have hm := lumaMean_const pixels L hne h
  constructor
  · rw [fgGroup]
    refine List.filter_eq_self.mpr fun p hp => ?_
    simp [hm, h p hp]
  · rw [bgGroup]
    refine List.filter_eq_nil_iff.mpr fun p hp => ?_
    simp [hm, h p hp]

/-- For valid `FloatOps`, `srgb_to_linear` maps [0,1] into [0,1]. -/
theorem srgb_to_linear_mem (ops : FloatOps) (hops : ops.Valid) (c : ℚ)
    (h0 : 0 ≤ c) (h1 : c ≤ 1) :
    0 ≤ srgb_to_linear ops c ∧ srgb_to_linear ops c ≤ 1 := by
  rw [srgb_to_linear]
  split
  · constructor
    · positivity
    · rw [div_le_one (by norm_num)]
      linarith
  · refine hops.1 _ ?_ ?_
    · positivity
    · rw [div_le_one (by norm_num)]
      linarith

/-- For valid `FloatOps`, `linear_to_srgb` maps [0,1] into [0,1]. -/
theorem linear_to_srgb_mem (ops : FloatOps) (hops : ops.Valid) (c : ℚ)
    (h0 : 0 ≤ c) (h1 : c ≤ 1) :
    0 ≤ linear_to_srgb ops c ∧ linear_to_srgb ops c ≤ 1 := by
  rw [linear_to_srgb]
  split
  · rename_i hle
    constructor
    · positivity
    · nlinarith
  · rename_i hgt
    push_neg at hgt
    obtain ⟨ha, hb⟩ := hops.2.1 c (le_of_lt hgt) h1
    constructor <;> nlinarith

/-- The pixel list of a fully in-bounds octant cell of a uniform image
with a zero buffer. -/
def octantUniformPixels (ops : FloatOps) (v : ℕ) : List PixelData :=
  Octant.coords.map fun c =>
    ⟨(2126/10000) * linear_to_srgb ops (srgb_to_linear ops ((v : ℚ) / 255)) +
        (7152/10000) * linear_to_srgb ops (srgb_to_linear ops ((v : ℚ) / 255)) +
        (722/10000) * linear_to_srgb ops (srgb_to_linear ops ((v : ℚ) / 255)),
      linear_to_srgb ops (srgb_to_linear ops ((v : ℚ) / 255)),
      linear_to_srgb ops (srgb_to_linear ops ((v : ℚ) / 255)),
      linear_to_srgb ops (srgb_to_linear ops ((v : ℚ) / 255)), c.2.2⟩

/-- Every pixel an octant cell collects from a uniform image under a zero
buffer has the re-encoded uniform channel in every field. -/
theorem octant_collect_uniform (ops : FloatOps) (w h v x y : ℕ) :
    ∀ p ∈ Octant.collectPixels ops (uniformImg w h v) zeroBuf x y,
      p.luma = linear_to_srgb ops (srgb_to_linear ops ((v : ℚ) / 255)) ∧
      p.r = linear_to_srgb ops (srgb_to_linear ops ((v : ℚ) / 255)) ∧
      p.g = linear_to_srgb ops (srgb_to_linear ops ((v : ℚ) / 255)) ∧
      p.b = linear_to_srgb ops (srgb_to_linear ops ((v : ℚ) / 255)) := by
  intro p hp
  rw [Octant.collectPixels] at hp
  obtain ⟨c, hc, hf⟩ := List.mem_filterMap.mp hp
  by_cases hin : x + c.1 < (uniformImg w h v).width ∧ y + c.2.1 < (uniformImg w h v).height
  · rw [if_pos hin] at hf
    have := Option.some.inj hf
    subst this
    refine ⟨?_, ?_, ?_, ?_⟩ <;> (simp [uniformImg, zeroBuf]; try ring)
  · rw [if_neg hin] at hf
    exact absurd hf (by simp)

/-- Field facts for the canonical uniform octant pixel list. -/
theorem octant_uniformPixels_fields (ops : FloatOps) (v : ℕ) :
    ∀ p ∈ octantUniformPixels ops v,
      p.luma = linear_to_srgb ops (srgb_to_linear ops ((v : ℚ) / 255)) ∧
      p.r = linear_to_srgb ops (srgb_to_linear ops ((v : ℚ) / 255)) ∧
      p.g = linear_to_srgb ops (srgb_to_linear ops ((v : ℚ) / 255)) ∧
      p.b = linear_to_srgb ops (srgb_to_linear ops ((v : ℚ) / 255)) := by
  intro p hp
  rw [octantUniformPixels] at hp
  obtain ⟨c, hc, rfl⟩ := List.mem_map.mp hp
  exact ⟨by ring, rfl, rfl, rfl⟩

/-- A fully in-bounds octant cell of a uniform image collects the
canonical uniform pixel list (independent of the cell origin). -/
theorem octant_collect_full (ops : FloatOps) (w h v x y : ℕ)
    (hx : x + 1 < w) (hy : y + 3 < h) :
    Octant.collectPixels ops (uniformImg w h v) zeroBuf x y = octantUniformPixels ops v := by
  rw [Octant.collectPixels, octantUniformPixels]
  rw [List.filterMap_congr (g := fun c => some
    (⟨(2126/10000) * linear_to_srgb ops (srgb_to_linear ops ((v : ℚ) / 255)) +
        (7152/10000) * linear_to_srgb ops (srgb_to_linear ops ((v : ℚ) / 255)) +
        (722/10000) * linear_to_srgb ops (srgb_to_linear ops ((v : ℚ) / 255)),
      linear_to_srgb ops (srgb_to_linear ops ((v : ℚ) / 255)),
      linear_to_srgb ops (srgb_to_linear ops ((v : ℚ) / 255)),
      linear_to_srgb ops (srgb_to_linear ops ((v : ℚ) / 255)), c.2.2⟩ : PixelData)) ?_]
  · exact List.filterMap_eq_map _ ▸ rfl
  · intro c hc
    have hcb : c.1 ≤ 1 ∧ c.2.1 ≤ 3 := by
      fin_cases hc <;> exact ⟨by norm_num, by norm_num⟩
    have hin : x + c.1 < (uniformImg w h v).width ∧ y + c.2.1 < (uniformImg w h v).height := by
      simp only [uniformImg]
      omega
    rw [if_pos hin]
    simp [uniformImg, zeroBuf]

/-- An octant cell whose pixels all carry one channel value in [0,1]
produces a zero residual: the foreground group is everything, background
defaults to the foreground average, the un-mix clamp is the identity, and
the re-mix reproduces the target exactly. -/
theorem octant_cellOutErr_const (ops : FloatOps) (hops : ops.Valid)
    (pixels : List PixelData) (ch : ℚ) (h0 : 0 ≤ ch) (h1 : ch ≤ 1)
    (h : ∀ p ∈ pixels, p.luma = ch ∧ p.r = ch ∧ p.g = ch ∧ p.b = ch) :
    (Octant.cellOutErr ops pixels).2 = (0, 0, 0) := by
  rw [Octant.cellOutErr]
  by_cases hne : pixels = []
  · rw [if_pos hne]
  · rw [if_neg hne]
    obtain ⟨hfg, hbg⟩ := groups_const pixels ch hne (fun p hp => (h p hp).1)
    have havg : Octant.average_color_linear ops pixels =
        some (srgb_to_linear ops ch, srgb_to_linear ops ch, srgb_to_linear ops ch) := by
      rw [Octant.average_color_linear, if_neg hne]
      have hlen : (pixels.length : ℚ) ≠ 0 := by
        have := List.length_pos.mpr hne
        positivity
      rw [sum_map_const pixels _ (srgb_to_linear ops ch)
          (fun p hp => by rw [(h p hp).2.1]),
        sum_map_const pixels _ (srgb_to_linear ops ch)
          (fun p hp => by rw [(h p hp).2.2.1]),
        sum_map_const pixels _ (srgb_to_linear ops ch)
          (fun p hp => by rw [(h p hp).2.2.2])]
      field_simp
    have hnil : Octant.average_color_linear ops ([] : List PixelData) = none := by
      rw [Octant.average_color_linear]
      simp
    obtain ⟨ht0, ht1⟩ := srgb_to_linear_mem ops hops ch h0 h1
    have hclamp : clampQ (2 * srgb_to_linear ops ch - srgb_to_linear ops ch) 0 1 =
        srgb_to_linear ops ch := by
      have h2 : 2 * srgb_to_linear ops ch - srgb_to_linear ops ch = srgb_to_linear ops ch := by
        ring
      rw [clampQ, h2, min_eq_left ht1, max_eq_right ht0]
    have hclamp2 : clampQ (srgb_to_linear ops ch) 0 1 = srgb_to_linear ops ch := by
      rw [clampQ, min_eq_left ht1, max_eq_right ht0]
    simp only [hfg, hbg, havg, hnil, Option.getD_none, Option.getD_some,
      Octant.solve_dot_color, hclamp, hclamp2, Prod.mk.injEq]
    refine ⟨by ring, by ring, by ring⟩

/-- Length of `(0..2k).step_by(2)`. -/
theorem stepRange_two_length (k : ℕ) : (stepRange (2 * k) 2).length = k := by
  simp only [stepRange, List.length_map, List.length_range]
  omega

/-- Cells of a width-`2k` scan have their right column in bounds. -/
theorem mem_stepRange_two (k x : ℕ) (hx : x ∈ stepRange (2 * k) 2) : x + 1 < 2 * k := by
  simp only [stepRange, List.mem_map, List.mem_range] at hx
  obtain ⟨i, hi, rfl⟩ := hx
  omega

/-- Cells of a height-`4m` scan have their bottom row in bounds. -/
theorem mem_stepRange_four (m y : ℕ) (hy : y ∈ stepRange (4 * m) 4) : y + 3 < 4 * m := by
  simp only [stepRange, List.mem_map, List.mem_range] at hy
  obtain ⟨i, hi, rfl⟩ := hy
  omega

/-- One uniform octant cell row renders the canonical cell at every
position and returns the buffer unchanged (zero residual diffused). -/
theorem octant_row_uniform (ops : FloatOps) (hops : ops.Valid) (w h v y : ℕ)
    (hv : v ≤ 255) (hy : y + 3 < h) :
    ∀ xs : List ℕ, (∀ x ∈ xs, x + 1 < w) →
      Octant.renderRow ops (uniformImg w h v) y xs zeroBuf =
        (List.replicate xs.length (Octant.cellOutErr ops (octantUniformPixels ops v)).1,
          zeroBuf) := by
  have hch0 : (0 : ℚ) ≤ (v : ℚ) / 255 := by positivity
  have hch1 : (v : ℚ) / 255 ≤ 1 := by
    rw [div_le_one (by norm_num)]
    exact_mod_cast le_trans (Nat.cast_le.mpr hv) (by norm_num)
  obtain ⟨hs0, hs1⟩ := srgb_to_linear_mem ops hops _ hch0 hch1
  obtain ⟨hl0, hl1⟩ := linear_to_srgb_mem ops hops _ hs0 hs1
  have herr : (Octant.cellOutErr ops (octantUniformPixels ops v)).2 = (0, 0, 0) :=
    octant_cellOutErr_const ops hops _ _ hl0 hl1 (octant_uniformPixels_fields ops v)
  intro xs
  induction xs with
  | nil => intro; rfl
  | cons x xs ih =>
    intro hxs
    have hx := hxs x (List.mem_cons_self x xs)
    rw [Octant.renderRow, Octant.render_cell,
      octant_collect_full ops w h v x y hx hy, herr, octant_diffuseCell_zero,
      ih fun a ha => hxs a (List.mem_cons_of_mem x ha)]
    rfl

/-- All rows of a uniform octant render are identical and leave the
buffer zero. -/
theorem octant_rows_uniform (ops : FloatOps) (hops : ops.Valid) (k h v : ℕ)
    (hv : v ≤ 255) :
    ∀ ys : List ℕ, (∀ y ∈ ys, y + 3 < h) →
      Octant.renderRows ops (uniformImg (2 * k) h v) ys zeroBuf =
        (List.replicate ys.length
          (List.replicate k (Octant.cellOutErr ops (octantUniformPixels ops v)).1),
          zeroBuf) := by
  intro ys
  induction ys with
  | nil => intro; rfl
  | cons y ys ih =>
    intro hys
    have hy := hys y (List.mem_cons_self y ys)
    have hrow := octant_row_uniform ops hops (2 * k) h v y hv hy
      (stepRange (uniformImg (2 * k) h v).width 2)
      (fun x hx => mem_stepRange_two k x hx)
    rw [Octant.renderRows, hrow, ih fun a ha => hys a (List.mem_cons_of_mem y ha)]
    have hlen : (stepRange (uniformImg (2 * k) h v).width 2).length = k :=
      stepRange_two_length k
    rw [hlen]
    simp [List.replicate_succ]

/-- One output unit of the multi-image binaries' `main`: the optional
filename header (printed when several files were supplied), a per-file
decode error report, the rendered lines of one image, or the no-input
warning. -/
inductive Msg (β : Type) where
  | header (path : β)
  | errLine (path : β) (e : String)
  | imageLines (lines : List (List CellOut))
  | warn

/-- Loop body of octant.rs / braille.rs / quadrant.rs / sextant.rs
`main`: optional header, then either the render of the decoded image or
the per-file error report. -/
def reportOne {β : Type} (render : Image → List (List CellOut))
    (dec : β → Except String Image) (multi : Bool) (p : β) : List (Msg β) :=
  (if multi then [Msg.header p] else []) ++
    match dec p with
    | .ok img => [Msg.imageLines (render img)]
    | .error e => [Msg.errLine p e]

/-- The `main` of the multi-image binaries: warn and return `Ok(())` on
empty input, otherwise process every path in order and return `Ok(())`
regardless of per-file failures. -/
def mainBatch {β : Type} (render : Image → List (List CellOut))
    (dec : β → Except String Image) (paths : List β) :
    List (Msg β) × Except String Unit :=
  if paths.isEmpty then ([Msg.warn], Except.ok ())
  else (paths.flatMap (reportOne render dec (decide (1 < paths.length))), Except.ok ())

/-- Concrete decoder for witness instantiations: path 0 fails to decode,
every other path decodes to an empty image. -/
def demoDec : ℕ → Except String Image :=
  fun n => if n = 0 then Except.error "bad" else Except.ok (uniformImg 0 0 0)

/-- Concrete renderer for witness instantiations. -/
def demoRender : Image → List (List CellOut) := fun _ => []

/-- The 12-tap kernel as the specification §4.2 lists it: offsets with
weights given as multiples of `1/42`. -/
def specKernel : List (ℤ × ℤ × ℚ) :=
  [(1, 0, 8 * (1/42 : ℚ)), (2, 0, 4 * (1/42 : ℚ)),
   (-2, 1, 2 * (1/42 : ℚ)), (-1, 1, 4 * (1/42 : ℚ)), (0, 1, 8 * (1/42 : ℚ)),
   (1, 1, 4 * (1/42 : ℚ)), (2, 1, 2 * (1/42 : ℚ)),
   (-2, 2, 1 * (1/42 : ℚ)), (-1, 2, 2 * (1/42 : ℚ)), (0, 2, 4 * (1/42 : ℚ)),
   (1, 2, 2 * (1/42 : ℚ)), (2, 2, 1 * (1/42 : ℚ))]

end Jiv

namespace Jiv

/-- C5: the 12-tap error-diffusion kernel of every diffusing renderer
(main.rs, braille.rs, octant.rs) has exactly the offsets and weights
(+1,0):8/42, (+2,0):4/42, (−2,+1):2/42, (−1,+1):4/42, (0,+1):8/42,
(+1,+1):4/42, (+2,+1):2/42, (−2,+2):1/42, (−1,+2):2/42, (0,+2):4/42,
(+1,+2):2/42, (+2,+2):1/42 that §4.2 lists, and the weights sum exactly
to 1. -/
theorem c5_kernel_weights :
    Main.diffusion_coords = specKernel ∧
    Braille.diffusion_coords = specKernel ∧
    Octant.diffusion_coords = specKernel ∧
    (Main.diffusion_coords.map fun t => t.2.2).sum = 1 := by
  refine ⟨?_, ?_, ?_, ?_⟩ <;>
    norm_num [Main.diffusion_coords, Braille.diffusion_coords, Octant.diffusion_coords,
      specKernel]

/-- C6: the sextant table maps index 21 to the left half block U+258C and
index 42 to the right half block U+2590 (not dedicated sextant glyphs),
index 0 to the space and index 63 to the full block U+2588. -/
theorem c6_sextant_exceptions :
    Sextant.SEXTANTS.get? 21 = some '▌' ∧
    Sextant.SEXTANTS.get? 42 = some '▐' ∧
    Sextant.SEXTANTS.get? 0 = some ' ' ∧
    Sextant.SEXTANTS.get? 63 = some '█' := by
  refine ⟨?_, ?_, ?_, ?_⟩ <;> decide

set_option maxRecDepth 4096 in
/-- C7: every mask value in range resolves to exactly one character: the
16-entry quadrant table and the 64-entry sextant table are total on their
mask ranges, and for every 8-bit Braille mask `char::from_u32 (0x2800 +
mask)` succeeds, so the `unwrap_or(' ')` fallback branch is unreachable
(`from_u32` returns `some`, never the fallback). -/
theorem c7_tables_total :
    (∀ m : ℕ, m < 16 → (Quadrant.QUADRANTS.get? m).isSome = true) ∧
    (∀ m : ℕ, m < 64 → (Sextant.SEXTANTS.get? m).isSome = true) ∧
    (∀ m : ℕ, m < 256 → from_u32 (0x2800 + m) = some (Char.ofNat (0x2800 + m))) := by
  refine ⟨?_, ?_, ?_⟩ <;> decide

/-- C1 counterexample: on the concrete 2×2 image whose top row is
(0,5,0) and bottom row (8,0,0), the quadrant renderer's output differs
from the §4.4/§4.2 Policy B description (un-mix, residual, 12-tap
diffusion in linear light): the un-mix/residual step would emit
foreground (0,10,0) and diffuse a nonzero red residual, while
quadrant.rs emits the plain group average (0,5,0) and has no
error-diffusion state at all.  The second conjunct shows the residual
prescribed by the specification is nonzero at this cell, so the
difference is not vacuous. -/
theorem c1_counter :
    Quadrant.render_image testOps ⟨2, 2, fun _ y => if y = 0 then (0, 5, 0) else (8, 0, 0)⟩ ≠
      Quadrant.render_image_spec testOps
        ⟨2, 2, fun _ y => if y = 0 then (0, 5, 0) else (8, 0, 0)⟩ ∧
    (Quadrant.render_cell_spec testOps
        ⟨2, 2, fun _ y => if y = 0 then (0, 5, 0) else (8, 0, 0)⟩ zeroBuf 0 0).2 ≠ (0, 0, 0) := by
  have hstep : stepRange 2 2 = [0] := by norm_num [stepRange, List.range_succ]
  have hcellc : Quadrant.render_cell testOps
      ⟨2, 2, fun _ y => if y = 0 then (0, 5, 0) else (8, 0, 0)⟩ 0 0 =
      .colored '▀' (0, 5, 0) (8, 0, 0) := by
    norm_num [Quadrant.render_cell, Quadrant.collectPixels,
      Quadrant.coords, Quadrant.average_color, Quadrant.QUADRANTS, fgGroup, bgGroup, maskOf,
      lumaMean, srgb_to_linear, linear_to_srgb, toU8, clampQ, roundQ, List.filterMap,
      List.filter, List.foldl, List.cons_ne_nil, Prod.ext_iff]
    try decide
  have hcells : Quadrant.render_cell_spec testOps
      ⟨2, 2, fun _ y => if y = 0 then (0, 5, 0) else (8, 0, 0)⟩ zeroBuf 0 0 =
      (.colored '▀' (0, 10, 0) (8, 0, 0), (-20/16473, 0, 0)) := by
    norm_num [Quadrant.render_cell_spec, Quadrant.collectPixels_spec, Quadrant.coords,
      Octant.average_color_linear, Octant.solve_dot_color, Octant.encodeU8, Octant.octU8,
      fgGroup, bgGroup, maskOf, lumaMean, srgb_to_linear, linear_to_srgb, clampQ, roundQ,
      zeroBuf, Quadrant.QUADRANTS, List.filterMap, List.filter, List.foldl, List.cons_ne_nil,
      Prod.ext_iff]
    try decide
  have h1 : Quadrant.render_image testOps
      ⟨2, 2, fun _ y => if y = 0 then (0, 5, 0) else (8, 0, 0)⟩ =
      [[.colored '▀' (0, 5, 0) (8, 0, 0)]] := by
    rw [Quadrant.render_image]
    rw [show (⟨2, 2, fun _ y => if y = 0 then (0, 5, 0) else (8, 0, 0)⟩ : Image).height = 2
      from rfl, show (⟨2, 2, fun _ y => if y = 0 then (0, 5, 0) else (8, 0, 0)⟩ : Image).width = 2
      from rfl, hstep]
    simp only [List.map_cons, List.map_nil, hcellc]
  have h2 : Quadrant.render_image_spec testOps
      ⟨2, 2, fun _ y => if y = 0 then (0, 5, 0) else (8, 0, 0)⟩ =
      [[.colored '▀' (0, 10, 0) (8, 0, 0)]] := by
    rw [Quadrant.render_image_spec, hstep]
    simp only [Quadrant.renderRows_spec, Quadrant.renderRow_spec, hstep, hcells]
  exact ⟨by rw [h1, h2]; decide, by rw [hcells]; norm_num [Prod.ext_iff]⟩

/-- C1 amended: the quadrant and sextant renderers perform no error
diffusion at all — each cell's output is a function of that cell's own
pixel window only (first two conjuncts); of the Policy B renderers only
the BTC dot-matrix renderer octant.rs computes the re-mix residual and
threads it forward through the 12-tap kernel, one `diffuseCell` per
rendered cell (third conjunct). -/
theorem c1_amended :
    (∀ (ops : FloatOps) (I J : Image) (x y : ℕ),
        I.width = J.width → I.height = J.height →
        (∀ dx dy, dx < 2 → dy < 2 → I.pix (x + dx) (y + dy) = J.pix (x + dx) (y + dy)) →
        Quadrant.render_cell ops I x y = Quadrant.render_cell ops J x y) ∧
    (∀ (ops : FloatOps) (I J : Image) (x y : ℕ),
        I.width = J.width → I.height = J.height →
        (∀ dx dy, dx < 2 → dy < 3 → I.pix (x + dx) (y + dy) = J.pix (x + dx) (y + dy)) →
        Sextant.render_cell ops I x y = Sextant.render_cell ops J x y) ∧
    (∀ (ops : FloatOps) (img : Image) (y x : ℕ) (xs : List ℕ) (buf : Buf),
        Octant.renderRow ops img y (x :: xs) buf =
          ((Octant.render_cell ops img buf x y).1 ::
              (Octant.renderRow ops img y xs
                (Octant.diffuseCell img x y (Octant.render_cell ops img buf x y).2 buf)).1,
            (Octant.renderRow ops img y xs
              (Octant.diffuseCell img x y (Octant.render_cell ops img buf x y).2 buf)).2)) := by
  refine ⟨?_, ?_, fun ops img y x xs buf => rfl⟩
  · intro ops I J x y hw hh hpix
    have hcollect : Quadrant.collectPixels I x y = Quadrant.collectPixels J x y := by
      unfold Quadrant.collectPixels
      refine List.filterMap_congr fun c hc => ?_
      have hcb : c.1 < 2 ∧ c.2.1 < 2 := by fin_cases hc <;> exact ⟨by norm_num, by norm_num⟩
      rw [hw, hh]
      by_cases hin : x + c.1 < J.width ∧ y + c.2.1 < J.height
      · rw [if_pos hin, if_pos hin, hpix c.1 c.2.1 hcb.1 hcb.2]
      · rw [if_neg hin, if_neg hin]
    unfold Quadrant.render_cell
    rw [hcollect]
  · intro ops I J x y hw hh hpix
    have hcollect : Sextant.collectPixels I x y = Sextant.collectPixels J x y := by
      unfold Sextant.collectPixels
      refine List.filterMap_congr fun c hc => ?_
      have hcb : c.1 < 2 ∧ c.2.1 < 3 := by fin_cases hc <;> exact ⟨by norm_num, by norm_num⟩
      rw [hw, hh]
      by_cases hin : x + c.1 < J.width ∧ y + c.2.1 < J.height
      · rw [if_pos hin, if_pos hin, hpix c.1 c.2.1 hcb.1 hcb.2]
      · rw [if_neg hin, if_neg hin]
    unfold Sextant.render_cell
    rw [hcollect]

/-- C1 amended witness: cell independence applied to two concrete images
that agree on the window of cell (0,0) but differ elsewhere. -/
theorem c1_amended_witness :
    Quadrant.render_cell testOps (uniformImg 4 4 0) 0 0 =
      Quadrant.render_cell testOps ⟨4, 4, fun x _ => if 2 ≤ x then (9, 9, 9) else (0, 0, 0)⟩ 0 0 :=
  c1_amended.1 testOps (uniformImg 4 4 0)
    ⟨4, 4, fun x _ => if 2 ≤ x then (9, 9, 9) else (0, 0, 0)⟩ 0 0 rfl rfl
    (fun dx dy hdx _ => by simp [uniformImg, Nat.not_le.mpr hdx])

set_option maxHeartbeats 1600000 in
/-- C4 counterexample: uniform input does not give zero residual and
identical cells in every renderer and at every size.  (i) The dot-matrix
renderer main.rs on a uniform gray-128 image (2×1, default threshold 128,
no invert) pushes the nonzero residual −75·8/42 = −100/7 into the
diffusion buffer at (1,0): the sqrt-encoded luma `sqrt(128/255)·255 ≈
180.7` is truncated to 180, the pixel is on, and 180−255 = −75 is
diffused.  (The statement instantiates the abstract sqrt with the
constant 0.7085, which matches `sqrt (128/255) = 0.70849...` to the
precision the truncation observes; any value in (0.506, 0.999) gives a
nonzero residual.)  (ii) On a uniform black 2×5 image the octant
renderer emits a full 2×4 glyph for the first cell but a 2×1 sub-mask
glyph for the partial edge cell, so the emitted glyph/color pair is not
identical for every cell when the height is not a multiple of 4. -/
theorem c4_counter :
    (Main.renderPass testOps (uniformImg 2 1 128) (fun _ _ => 128) false 128).2 1 0 ≠ 0 ∧
    Octant.render_image testOps (uniformImg 2 5 0) =
      [[.colored (Char.ofNat 0x28FF) (0, 0, 0) (0, 0, 0)],
       [.colored (Char.ofNat 0x2809) (0, 0, 0) (0, 0, 0)]] ∧
    Char.ofNat 0x28FF ≠ Char.ofNat 0x2809 := by
  refine ⟨?_, ?_, by decide⟩
  · norm_num [Main.renderPass, Main.renderRows, Main.renderRow, Main.render_cell, Main.maskStep,
      Main.addErrL, Main.coords, Main.diffusion_coords, testOps, truncQ, zeroBufL, uniformImg,
      stepRange, List.range_succ, List.foldl, Prod.ext_iff]
  · have hcell0 : Octant.render_cell testOps (uniformImg 2 5 0) zeroBuf 0 0 =
        (.colored (Char.ofNat 0x28FF) (0, 0, 0) (0, 0, 0), (0, 0, 0)) := by
      norm_num [Octant.render_cell, Octant.cellOutErr, Octant.collectPixels, Octant.coords,
        Octant.average_color_linear, Octant.solve_dot_color, Octant.encodeU8, Octant.octU8,
        from_u32, fgGroup, bgGroup, maskOf, lumaMean, srgb_to_linear, linear_to_srgb, clampQ,
        roundQ, zeroBuf, uniformImg, List.filterMap, List.filter, List.foldl, List.cons_ne_nil,
        Prod.ext_iff]
      try decide
    have hcell4 : Octant.render_cell testOps (uniformImg 2 5 0) zeroBuf 0 4 =
        (.colored (Char.ofNat 0x2809) (0, 0, 0) (0, 0, 0), (0, 0, 0)) := by
      norm_num [Octant.render_cell, Octant.cellOutErr, Octant.collectPixels, Octant.coords,
        Octant.average_color_linear, Octant.solve_dot_color, Octant.encodeU8, Octant.octU8,
        from_u32, fgGroup, bgGroup, maskOf, lumaMean, srgb_to_linear, linear_to_srgb, clampQ,
        roundQ, zeroBuf, uniformImg, List.filterMap, List.filter, List.foldl, List.cons_ne_nil,
        Prod.ext_iff]
      try decide
    have hs54 : stepRange (uniformImg 2 5 0).height 4 = [0, 4] := by
      norm_num [stepRange, uniformImg, List.range_succ]
    have hs22 : stepRange (uniformImg 2 5 0).width 2 = [0] := by
      norm_num [stepRange, uniformImg, List.range_succ]
    simp only [Octant.render_image, hs54, Octant.renderRows, hs22, Octant.renderRow,
      hcell0, hcell4, octant_diffuseCell_zero]

/-- C4 amended: for the octant (BTC dot-matrix) renderer and an
all-one-color image whose dimensions are multiples of the 2×4 cell size,
every cell renders the identical glyph/color pair (the canonical uniform
cell) and every cell's residual error is exactly zero, so homogeneous
regions gather no dithering noise.  The Policy A dot-matrix renderers
push nonzero residual on uniform mid-gray input, and partial edge cells
emit a different glyph (see the counterexample). -/
theorem c4_amended (ops : FloatOps) (hops : ops.Valid) (k m v : ℕ) (hv : v ≤ 255) :
    Octant.render_image ops (uniformImg (2 * k) (4 * m) v) =
      List.replicate m
        (List.replicate k (Octant.cellOutErr ops (octantUniformPixels ops v)).1) ∧
    ∀ x y : ℕ,
      (Octant.render_cell ops (uniformImg (2 * k) (4 * m) v) zeroBuf x y).2 = (0, 0, 0) := by
  constructor
  · rw [Octant.render_image,
      octant_rows_uniform ops hops k (4 * m) v hv
        (stepRange (uniformImg (2 * k) (4 * m) v).height 4)
        (fun y hy => mem_stepRange_four m y hy)]
    have hlen : (stepRange (uniformImg (2 * k) (4 * m) v).height 4).length = m := by
      simp only [stepRange, List.length_map, List.length_range, uniformImg]
      omega
    rw [hlen]
  · intro x y
    have hch0 : (0 : ℚ) ≤ (v : ℚ) / 255 := by positivity
    have hch1 : (v : ℚ) / 255 ≤ 1 := by
      rw [div_le_one (by norm_num)]
      exact_mod_cast le_trans (Nat.cast_le.mpr hv) (by norm_num)
    obtain ⟨hs0, hs1⟩ := srgb_to_linear_mem ops hops _ hch0 hch1
    obtain ⟨hl0, hl1⟩ := linear_to_srgb_mem ops hops _ hs0 hs1
    exact octant_cellOutErr_const ops hops _ _ hl0 hl1
      (octant_collect_uniform ops (2 * k) (4 * m) v x y)

/-- C4 amended witness: the uniform-idempotence theorem applied at a
2×4 black image with the concrete rational `FloatOps`. -/
theorem c4_amended_witness :
    Octant.render_image testOps (uniformImg (2 * 1) (4 * 1) 0) =
      List.replicate 1
        (List.replicate 1 (Octant.cellOutErr testOps (octantUniformPixels testOps 0)).1) ∧
    ∀ x y : ℕ,
      (Octant.render_cell testOps (uniformImg (2 * 1) (4 * 1) 0) zeroBuf x y).2 = (0, 0, 0) :=
  c4_amended testOps testOps_valid 1 1 0 (by decide)

/-- C3 counterexample: already on a 2×2 image the main.rs scan performs
an error-diffusion write to a position that was read earlier: the cell
reads (0,0), (0,1) and then (1,0) in the source's `coords` order, and
pixel (1,0)'s kernel tap (−1,+1) writes to (0,1), which was read two
events earlier.  So not every in-bounds write targets a not-yet-read
position. -/
theorem c3_counter : Main.freshWrites (Main.renderTrace 2 2) [] = false := by decide

/-- C3 amended: every in-bounds diffusion write of the main.rs scan
targets a position strictly after its source pixel in pixel raster order
(a strictly lower row, or the same row strictly to the right); it may
nevertheless land on a pixel already read by the cell-order scan (see the
counterexample), namely in the previous 2-wide cell column or an
earlier-read sub-cell of the same cell. -/
theorem c3_amended (w h : ℕ) (ev : Ev) (hmem : ev ∈ Main.renderTrace w h) (src tgt : ℕ × ℕ)
    (hev : ev = .wr src tgt) :
    src.2 < tgt.2 ∨ (src.2 = tgt.2 ∧ src.1 < tgt.1) := by
  subst hev
  simp only [Main.renderTrace, List.mem_flatMap] at hmem
  obtain ⟨y, -, x, -, c, -, hpt⟩ := hmem
  rw [Main.pixelTrace] at hpt
  by_cases hin : x + c.1 < w ∧ y + c.2.1 < h
  · rw [if_pos hin] at hpt
    rcases List.mem_cons.mp hpt with heq | hfm
    · exact absurd heq (by simp)
    · obtain ⟨t, ht, hf⟩ := List.mem_filterMap.mp hfm
      have htap : 0 < t.2.1 ∨ (t.2.1 = 0 ∧ 0 < t.1) := by
        have hall : ∀ u ∈ Main.diffusion_coords, 0 < u.2.1 ∨ (u.2.1 = 0 ∧ 0 < u.1) := by decide
        exact hall t ht
      by_cases hcond : 0 ≤ ((x + c.1 : ℕ) : ℤ) + t.1 ∧ ((x + c.1 : ℕ) : ℤ) + t.1 < (w : ℤ) ∧
          0 ≤ ((y + c.2.1 : ℕ) : ℤ) + t.2.1 ∧ ((y + c.2.1 : ℕ) : ℤ) + t.2.1 < (h : ℤ)
      · rw [if_pos hcond] at hf
        obtain ⟨hs, htg⟩ := (Ev.wr.injEq _ _ _ _).mp (Option.some.inj hf)
        subst hs; subst htg
        rcases htap with h1 | ⟨h2, h3⟩
        · left; simp only; omega
        · right; constructor <;> simp only <;> omega
      · rw [if_neg hcond] at hf; exact absurd hf (by simp)
  · rw [if_neg hin] at hpt; exact absurd hpt (by simp)

/-- C3 amended witness: the raster-order direction of a concrete write of
the 2×2 trace, the tap from pixel (0,0) to (1,0). -/
theorem c3_amended_witness :
    ((0, 0) : ℕ × ℕ).2 < ((1, 0) : ℕ × ℕ).2 ∨
      (((0, 0) : ℕ × ℕ).2 = ((1, 0) : ℕ × ℕ).2 ∧ ((0, 0) : ℕ × ℕ).1 < ((1, 0) : ℕ × ℕ).1) :=
  c3_amended 2 2 (Ev.wr (0, 0) (1, 0)) (by decide) (0, 0) (1, 0) rfl

/-- C2 counterexample: a uniform 2×2 quadrant cell of color (10,10,10).
Every sub-cell's luma equals the cell mean, so the background group is
empty — yet the quadrant renderer emits background (0,0,0), black, while
the foreground group's average color is (10,10,10).  (The claim's
described behavior holds only in octant.rs; quadrant.rs and sextant.rs
return black from `average_color` on an empty group.) -/
theorem c2_counter :
    bgGroup (Quadrant.collectPixels (uniformImg 2 2 10) 0 0) = [] ∧
    Quadrant.render_cell testOps (uniformImg 2 2 10) 0 0 =
      .colored '█' (10, 10, 10) (0, 0, 0) ∧
    Quadrant.average_color testOps (fgGroup (Quadrant.collectPixels (uniformImg 2 2 10) 0 0)) =
      (10, 10, 10) ∧
    ((0, 0, 0) : ℕ × ℕ × ℕ) ≠ (10, 10, 10) := by
  refine ⟨?_, ?_, ?_, by decide⟩ <;>
  · norm_num [Quadrant.render_cell, Quadrant.collectPixels, Quadrant.coords,
      Quadrant.average_color, Quadrant.QUADRANTS, uniformImg, fgGroup, bgGroup, maskOf,
      lumaMean, srgb_to_linear, linear_to_srgb, toU8, clampQ, roundQ, List.filterMap,
      List.filter, List.foldl, List.cons_ne_nil, Prod.ext_iff]
    try decide

/-- C2 amended: for a Policy B cell whose background group is empty, the
octant (BTC dot-matrix) renderer emits as background the foreground
group's average color; the quadrant and sextant renderers instead emit
black (0,0,0), because their `average_color` returns black for an empty
group. -/
theorem c2_amended (ops : FloatOps) (pixels : List PixelData)
    (hne : pixels ≠ []) (hbg : bgGroup pixels = []) :
    fgGroup pixels = pixels ∧
    (Octant.cellOutErr ops pixels).1.bgColor =
      some (Octant.encodeU8 ops
        ((Octant.average_color_linear ops pixels).getD (0, 0, 0))) ∧
    Quadrant.average_color ops (bgGroup pixels) = (0, 0, 0) ∧
    Sextant.average_color ops (bgGroup pixels) = (0, 0, 0) := by
  have hfg : fgGroup pixels = pixels := by
    refine List.filter_eq_self.mpr fun a ha => ?_
    have := List.filter_eq_nil_iff.mp hbg a ha
    simpa using this
  refine ⟨hfg, ?_, ?_, ?_⟩
  · have h1 : Octant.average_color_linear ops [] = none := by
      simp [Octant.average_color_linear]
    obtain ⟨v, hv⟩ : ∃ v, Octant.average_color_linear ops pixels = some v :=
      ⟨_, by rw [Octant.average_color_linear, if_neg hne]⟩
    simp [Octant.cellOutErr, hbg, hfg, h1, hv, hne, CellOut.bgColor]
  · rw [hbg, Quadrant.average_color, if_pos rfl]
  · rw [hbg, Sextant.average_color, if_pos rfl]

/-- C2 amended witness: the amended theorem applied to a one-pixel cell. -/
theorem c2_amended_witness :
    fgGroup [⟨1/2, 1/2, 1/2, 1/2, 1⟩] = [⟨1/2, 1/2, 1/2, 1/2, 1⟩] ∧
    (Octant.cellOutErr testOps [⟨1/2, 1/2, 1/2, 1/2, 1⟩]).1.bgColor =
      some (Octant.encodeU8 testOps
        ((Octant.average_color_linear testOps [⟨1/2, 1/2, 1/2, 1/2, 1⟩]).getD (0, 0, 0))) ∧
    Quadrant.average_color testOps (bgGroup [⟨1/2, 1/2, 1/2, 1/2, 1⟩]) = (0, 0, 0) ∧
    Sextant.average_color testOps (bgGroup [⟨1/2, 1/2, 1/2, 1/2, 1⟩]) = (0, 0, 0) :=
  c2_amended testOps [⟨1/2, 1/2, 1/2, 1/2, 1⟩] (List.cons_ne_nil _ _)
    (by simp [bgGroup, lumaMean])

/-- C9: batch processing is strictly sequential and per-file isolated:
no input gives the warning and a successful exit; the batch always
returns `Ok(())`; a decode failure on one file is reported in place (the
per-file error line) and leaves the reports of every other file
unchanged — in particular all files after the failing one are still
processed; and each image is rendered from a freshly zero-initialized
error-diffusion buffer (octant.rs `render_image` always starts from
`zeroBuf`). -/
theorem c9_batch_isolation {β : Type} (render : Image → List (List CellOut))
    (dec : β → Except String Image) :
    mainBatch render dec ([] : List β) = ([Msg.warn], Except.ok ()) ∧
    (∀ paths : List β, (mainBatch render dec paths).2 = Except.ok ()) ∧
    (∀ (xs ys : List β) (b : β) (e : String), dec b = Except.error e →
      (mainBatch render dec (xs ++ b :: ys)).1 =
        xs.flatMap (reportOne render dec (decide (1 < (xs ++ b :: ys).length))) ++
          ((if decide (1 < (xs ++ b :: ys).length) then [Msg.header b] else []) ++
            [Msg.errLine b e]) ++
          ys.flatMap (reportOne render dec (decide (1 < (xs ++ b :: ys).length)))) ∧
    (∀ (ops : FloatOps) (img : Image),
      Octant.render_image ops img =
        (Octant.renderRows ops img (stepRange img.height 4) zeroBuf).1) := by
  refine ⟨by rw [mainBatch]; rfl, ?_, ?_, fun ops img => rfl⟩
  · intro paths
    rw [mainBatch]
    split <;> rfl
  · intro xs ys b e he
    have hne : (xs ++ b :: ys).isEmpty = false := by
      rcases xs with - | ⟨a, as⟩ <;> rfl
    rw [mainBatch, hne]
    simp only [Bool.false_eq_true, if_false, List.flatMap_append, List.flatMap_cons]
    rw [show reportOne render dec (decide (1 < (xs ++ b :: ys).length)) b =
      (if decide (1 < (xs ++ b :: ys).length) then [Msg.header b] else []) ++
        [Msg.errLine b e] from by rw [reportOne, he]]
    simp [List.append_assoc]

/-- C9 witness: a three-file batch whose middle file fails to decode
still reports the first and last files. -/
theorem c9_batch_isolation_witness :
    (mainBatch demoRender demoDec ([1] ++ 0 :: [2])).1 =
      [1].flatMap (reportOne demoRender demoDec (decide (1 < ([1] ++ 0 :: [2]).length))) ++
        ((if decide (1 < ([1] ++ 0 :: [2]).length) then [Msg.header 0] else []) ++
          [Msg.errLine 0 "bad"]) ++
        [2].flatMap (reportOne demoRender demoDec (decide (1 < ([1] ++ 0 :: [2]).length))) :=
  (c9_batch_isolation demoRender demoDec).2.2.1 [1] [2] 0 "bad" rfl

/-- C10: rendering is deterministic.  Two runs of the octant renderer on
the same decoded image whose error-diffusion buffers are both
zero-initialized (which is what the code always does — `render_image`
allocates `vec![vec![(0.0,0.0,0.0); w]; h]` afresh) produce identical
output, and the lines a batch emits for an image depend only on that
image's decode result, not on the surrounding inputs or any prior
image's state. -/
theorem c10_deterministic :
    (∀ (ops : FloatOps) (img : Image) (b1 b2 : Buf), b1 = zeroBuf → b2 = zeroBuf →
      (Octant.renderRows ops img (stepRange img.height 4) b1).1 =
        (Octant.renderRows ops img (stepRange img.height 4) b2).1) ∧
    (∀ (β : Type) (render : Image → List (List CellOut)) (dec : β → Except String Image)
        (xs ys : List β) (p : β) (img : Image), dec p = Except.ok img →
      (mainBatch render dec (xs ++ p :: ys)).1 =
        xs.flatMap (reportOne render dec (decide (1 < (xs ++ p :: ys).length))) ++
          ((if decide (1 < (xs ++ p :: ys).length) then [Msg.header p] else []) ++
            [Msg.imageLines (render img)]) ++
          ys.flatMap (reportOne render dec (decide (1 < (xs ++ p :: ys).length)))) := by
  constructor
  · intro ops img b1 b2 h1 h2
    rw [h1, h2]
  · intro β render dec xs ys p img hp
    have hne : (xs ++ p :: ys).isEmpty = false := by
      rcases xs with - | ⟨a, as⟩ <;> rfl
    rw [mainBatch, hne]
    simp only [Bool.false_eq_true, if_false, List.flatMap_append, List.flatMap_cons]
    rw [show reportOne render dec (decide (1 < (xs ++ p :: ys).length)) p =
      (if decide (1 < (xs ++ p :: ys).length) then [Msg.header p] else []) ++
        [Msg.imageLines (render img)] from by rw [reportOne, hp]]
    simp [List.append_assoc]

/-- C10 witness: the determinism theorem applied to a concrete image with
two (equal, zero) initial buffers, and to a singleton batch. -/
theorem c10_deterministic_witness :
    (Octant.renderRows testOps (uniformImg 2 2 0)
        (stepRange (uniformImg 2 2 0).height 4) zeroBuf).1 =
      (Octant.renderRows testOps (uniformImg 2 2 0)
        (stepRange (uniformImg 2 2 0).height 4) zeroBuf).1 ∧
    (mainBatch demoRender demoDec ([] ++ 1 :: [])).1 =
      [].flatMap (reportOne demoRender demoDec (decide (1 < (([] ++ 1 :: []) : List ℕ).length))) ++
        ((if decide (1 < (([] ++ 1 :: []) : List ℕ).length) then [Msg.header 1] else []) ++
          [Msg.imageLines (demoRender (uniformImg 0 0 0))]) ++
        [].flatMap (reportOne demoRender demoDec (decide (1 < (([] ++ 1 :: []) : List ℕ).length))) :=
  ⟨c10_deterministic.1 testOps (uniformImg 2 2 0) zeroBuf zeroBuf rfl rfl,
    c10_deterministic.2 ℕ demoRender demoDec [] [] 1 (uniformImg 0 0 0) rfl⟩

/-- C7 witness: the totality theorem evaluated at concrete masks. -/
theorem c7_tables_total_witness :
    (Quadrant.QUADRANTS.get? 5).isSome = true ∧
    (Sextant.SEXTANTS.get? 21).isSome = true ∧
    from_u32 (0x2800 + 255) = some (Char.ofNat (0x2800 + 255)) :=
  ⟨c7_tables_total.1 5 (by decide), c7_tables_total.2.1 21 (by decide),
    c7_tables_total.2.2 255 (by decide)⟩

end Jiv

namespace Jiv

noncomputable def srgb_to_linearR (c : ℝ) : ℝ :=
  if c ≤ 0.04045 then c / 12.92 else ((c + 0.055) / 1.055) ^ ((12 : ℝ) / 5)

noncomputable def linear_to_srgbR (c : ℝ) : ℝ :=
  if c ≤ 0.0031308 then 12.92 * c else 1.055 * c ^ ((5 : ℝ) / 12) - 0.055

theorem rpow_div_nat_ge {a c : ℝ} (ha : 0 ≤ a) (hc : 0 ≤ c) (p q : ℕ) (hq : q ≠ 0)
    (h : c ^ q ≤ a ^ p) : c ≤ a ^ ((p : ℝ) / q) := by
  have hkey : (a ^ ((p : ℝ) / q)) ^ q = a ^ p := by
    rw [← Real.rpow_natCast (a ^ ((p : ℝ) / q)) q, ← Real.rpow_mul ha,
      div_mul_cancel₀ _ (by exact_mod_cast hq : (q : ℝ) ≠ 0), Real.rpow_natCast]
  by_contra hlt
  push_neg at hlt
  have := pow_lt_pow_left₀ hlt (Real.rpow_nonneg ha _) hq
  rw [hkey] at this
  linarith

theorem rpow_div_nat_le {a c : ℝ} (ha : 0 ≤ a) (hc : 0 ≤ c) (p q : ℕ) (hq : q ≠ 0)
    (h : a ^ p ≤ c ^ q) : a ^ ((p : ℝ) / q) ≤ c := by
  have hkey : (a ^ ((p : ℝ) / q)) ^ q = a ^ p := by
    rw [← Real.rpow_natCast (a ^ ((p : ℝ) / q)) q, ← Real.rpow_mul ha,
      div_mul_cancel₀ _ (by exact_mod_cast hq : (q : ℝ) ≠ 0), Real.rpow_natCast]
  by_contra hlt
  push_neg at hlt
  have := pow_lt_pow_left₀ hlt hc hq
  rw [hkey] at this
  linarith

theorem srgb_roundtripR (x : ℝ) :
    |linear_to_srgbR (srgb_to_linearR x) - x| ≤ 7/10000000 := by
  rw [srgb_to_linearR]
  by_cases hb : x ≤ 0.04045
  · rw [if_pos hb, linear_to_srgbR]
    by_cases hlin : x / 12.92 ≤ 0.0031308
    · rw [if_pos hlin]
      rw [show (12.92 : ℝ) * (x / 12.92) - x = 0 by field_simp]
      norm_num
    · rw [if_neg hlin]
      push_neg at hlin
      -- band: 0.040449936 < x ≤ 0.04045, value = 1.055*(x/12.92)^(5/12) - 0.055
      have hxlo : (0.040449936 : ℝ) < x := by
        have hh := (lt_div_iff₀ (by norm_num : (0:ℝ) < 12.92)).mp hlin
        nlinarith [hh]
      have ha0 : (0 : ℝ) ≤ x / 12.92 := by positivity
      have hup : (x / 12.92) ^ ((5 : ℝ) / 12) ≤ 0.0904740 := by
        refine rpow_div_nat_le ha0 (by norm_num) 5 12 (by norm_num) ?_
        calc (x / 12.92) ^ 5 ≤ ((809 : ℝ) / 258400) ^ 5 := by
              refine pow_le_pow_left₀ ha0 ?_ 5
              rw [div_le_div_iff₀ (by norm_num) (by norm_num)]
              nlinarith
          _ ≤ (0.0904740 : ℝ) ^ 12 := by norm_num
      have hlo : (0.090473845 : ℝ) ≤ (x / 12.92) ^ ((5 : ℝ) / 12) := by
        refine rpow_div_nat_ge ha0 (by norm_num) 5 12 (by norm_num) ?_
        calc (0.090473845 : ℝ) ^ 12 ≤ (0.0031308 : ℝ) ^ 5 := by norm_num
          _ ≤ (x / 12.92) ^ 5 := by
              refine pow_le_pow_left₀ (by norm_num) ?_ 5
              linarith
      rw [abs_le]
      constructor <;> nlinarith
  · rw [if_neg hb, linear_to_srgbR]
    push_neg at hb
    have hu0 : (0 : ℝ) ≤ (x + 0.055) / 1.055 := by positivity
    have huge : (1909 : ℝ) / 21100 ≤ (x + 0.055) / 1.055 := by
      rw [div_le_div_iff₀ (by norm_num) (by norm_num)]
      linarith
    have hgt : ¬((x + 0.055) / 1.055) ^ ((12 : ℝ) / 5) ≤ 0.0031308 := by
      push_neg
      have : (0.0031308 : ℝ) < ((1909 : ℝ) / 21100) ^ ((12 : ℝ) / 5) := by
        have h1909 : ((1909 : ℝ) / 21100) ^ ((12 : ℝ) / 5) ≥ 0.003130805 := by
          refine rpow_div_nat_ge (by norm_num) (by norm_num) 12 5 (by norm_num) ?_
          norm_num
        linarith
      calc (0.0031308 : ℝ) < ((1909 : ℝ) / 21100) ^ ((12 : ℝ) / 5) := this
        _ ≤ ((x + 0.055) / 1.055) ^ ((12 : ℝ) / 5) :=
            Real.rpow_le_rpow (by norm_num) huge (by norm_num)
    rw [if_neg hgt]
    have hcollapse : (((x + 0.055) / 1.055) ^ ((12 : ℝ) / 5)) ^ ((5 : ℝ) / 12) =
        (x + 0.055) / 1.055 := by
      rw [← Real.rpow_mul hu0]
      norm_num
    rw [hcollapse]
    rw [show (1.055 : ℝ) * ((x + 0.055) / 1.055) - 0.055 - x = 0 by field_simp]
    norm_num

end Jiv

namespace Jiv

/-- Bounds on `0.0031308 ^ (5/12)`. -/
theorem tau512_bounds :
    (0.090473845 : ℝ) ≤ (0.0031308 : ℝ) ^ ((5 : ℝ) / 12) ∧
      (0.0031308 : ℝ) ^ ((5 : ℝ) / 12) ≤ (0.090473846 : ℝ) := by
  constructor
  · refine rpow_div_nat_ge (by norm_num) (by norm_num) 5 12 (by norm_num) ?_
    norm_num
  · refine rpow_div_nat_le (by norm_num) (by norm_num) 5 12 (by norm_num) ?_
    norm_num

/-- Chord bound for the power branch: on `[0.0031308, ∞)` the slope of
`1.055 · c ^ (5/12)` between two points is at most 12.92. -/
theorem power_chord (a b : ℝ) (ha : (0.0031308 : ℝ) ≤ a) (hab : a ≤ b) :
    1.055 * b ^ ((5 : ℝ) / 12) - 1.055 * a ^ ((5 : ℝ) / 12) ≤ 12.92 * (b - a) ∧
      0 ≤ b ^ ((5 : ℝ) / 12) - a ^ ((5 : ℝ) / 12) := by
  have ha0 : (0 : ℝ) ≤ a := by linarith [show (0:ℝ) ≤ 0.0031308 by norm_num]
  have hb0 : (0 : ℝ) ≤ b := le_trans ha0 hab
  have hmono : a ^ ((5 : ℝ) / 12) ≤ b ^ ((5 : ℝ) / 12) :=
    Real.rpow_le_rpow ha0 hab (by norm_num)
  refine ⟨?_, by linarith⟩
  have hamg : a ^ ((7 : ℝ) / 12) * b ^ ((5 : ℝ) / 12) ≤ 7/12 * a + 5/12 * b :=
    Real.geom_mean_le_arith_mean2_weighted (by norm_num) (by norm_num) ha0 hb0 (by norm_num)
  have hsplit : a ^ ((7 : ℝ) / 12) * a ^ ((5 : ℝ) / 12) = a := by
    rw [← Real.rpow_add' ha0 (by norm_num)]
    norm_num
  have h7 : (0.0343 : ℝ) ≤ a ^ ((7 : ℝ) / 12) := by
    refine rpow_div_nat_ge ha0 (by norm_num) 7 12 (by norm_num) ?_
    calc (0.0343 : ℝ) ^ 12 ≤ (0.0031308 : ℝ) ^ 7 := by norm_num
      _ ≤ a ^ 7 := pow_le_pow_left₀ (by norm_num) ha 7
  -- a^(7/12) * (b^(5/12) - a^(5/12)) ≤ 5/12 * (b - a)
  have hkey : a ^ ((7 : ℝ) / 12) * (b ^ ((5 : ℝ) / 12) - a ^ ((5 : ℝ) / 12)) ≤
      5/12 * (b - a) := by nlinarith [hamg, hsplit]
  have hd : 0 ≤ b ^ ((5 : ℝ) / 12) - a ^ ((5 : ℝ) / 12) := by linarith
  nlinarith [mul_nonneg (by linarith : (0:ℝ) ≤ a ^ ((7:ℝ)/12) - 0.0343) hd, hkey]

/-- Lipschitz-with-jump bound for `linear_to_srgbR`: for `a ≤ b`,
`|l2s b − l2s a| ≤ 12.92 (b − a) + 3·10⁻⁸` (the additive term absorbs
the tiny negative jump of the piecewise definition at 0.0031308). -/
theorem l2sR_diff (a b : ℝ) (hab : a ≤ b) :
    |linear_to_srgbR b - linear_to_srgbR a| ≤ 12.92 * (b - a) + 3/100000000 := by
  obtain ⟨hc1, hc2⟩ := tau512_bounds
  rw [linear_to_srgbR, linear_to_srgbR]
  by_cases hbτ : b ≤ 0.0031308
  · have haτ : a ≤ 0.0031308 := le_trans hab hbτ
    rw [if_pos hbτ, if_pos haτ, abs_le]
    constructor <;> nlinarith
  · rw [if_neg hbτ]
    push_neg at hbτ
    by_cases haτ : a ≤ 0.0031308
    · rw [if_pos haτ]
      obtain ⟨hch, hmono⟩ := power_chord 0.0031308 b (le_refl _) (le_of_lt hbτ)
      rw [abs_le]
      constructor <;> nlinarith
    · rw [if_neg haτ]
      push_neg at haτ
      obtain ⟨hch, hmono⟩ := power_chord a b (le_of_lt haτ) hab
      rw [abs_le]
      constructor <;> nlinarith

end Jiv

namespace Jiv

noncomputable def cbrtR (x : ℝ) : ℝ :=
  if 0 ≤ x then x ^ ((1 : ℝ) / 3) else -((-x) ^ ((1 : ℝ) / 3))

noncomputable def linear_to_oklabR (r g b : ℝ) : ℝ × ℝ × ℝ :=
  let l := 0.4122214708 * r + 0.5363325363 * g + 0.0514459929 * b
  let m := 0.2119034982 * r + 0.6806995451 * g + 0.1073969566 * b
  let s := 0.0883024619 * r + 0.2817188376 * g + 0.6299787005 * b
  let lc := cbrtR l
  let mc := cbrtR m
  let sc := cbrtR s
  (0.2104542553 * lc + 0.7936177850 * mc - 0.0040720468 * sc,
   1.9779984951 * lc - 2.4285922050 * mc + 0.4505937099 * sc,
   0.0259040371 * lc + 0.7827717662 * mc - 0.8086757660 * sc)

noncomputable def oklab_to_linearR (l a b : ℝ) : ℝ × ℝ × ℝ :=
  let lc := l + 0.3963377774 * a + 0.2158037573 * b
  let mc := l - 0.1055613458 * a - 0.0638541728 * b
  let sc := l - 0.0894841775 * a - 1.2914855480 * b
  let l3 := lc ^ (3 : ℕ)
  let m3 := mc ^ (3 : ℕ)
  let s3 := sc ^ (3 : ℕ)
  (4.0767416621 * l3 - 3.3077115913 * m3 + 0.2309699292 * s3,
   -1.2684380046 * l3 + 2.6097574011 * m3 - 0.3413193965 * s3,
   -0.0041960863 * l3 - 0.7034186147 * m3 + 1.7076147010 * s3)

noncomputable def srgb_to_oklabR (r g b : ℝ) : ℝ × ℝ × ℝ :=
  linear_to_oklabR (srgb_to_linearR r) (srgb_to_linearR g) (srgb_to_linearR b)

noncomputable def oklab_to_srgbR (l a b : ℝ) : ℝ × ℝ × ℝ :=
  (linear_to_srgbR (oklab_to_linearR l a b).1,
   linear_to_srgbR (oklab_to_linearR l a b).2.1,
   linear_to_srgbR (oklab_to_linearR l a b).2.2)

theorem cbrt_cube (x : ℝ) (hx : 0 ≤ x) : (x ^ ((1 : ℝ) / 3)) ^ (3 : ℕ) = x := by
  rw [← Real.rpow_natCast (x ^ ((1 : ℝ) / 3)) 3, ← Real.rpow_mul hx]
  norm_num

theorem cube_perturb (x d η : ℝ) (hx0 : 0 ≤ x) (hx1 : x ≤ 1) (hη0 : 0 ≤ η)
    (hηs : η ≤ 1/10000000) (hd : |d| ≤ η) :
    |(x + d) ^ (3 : ℕ) - x ^ (3 : ℕ)| ≤ 301/100 * η := by
  rw [abs_le] at hd ⊢
  obtain ⟨hd1, hd2⟩ := hd
  have hx2 : x ^ 2 ≤ 1 := by nlinarith
  have hup1 : 3 * x ^ 2 * d ≤ 3 * η := by nlinarith [sq_nonneg x]
  have hlo1 : -(3 * η) ≤ 3 * x ^ 2 * d := by nlinarith [sq_nonneg x]
  have hdsq : d ^ 2 ≤ η ^ 2 := by nlinarith
  have hup2 : 3 * x * d ^ 2 ≤ 3 * η ^ 2 := by nlinarith [sq_nonneg d]
  have hlo2 : 0 ≤ 3 * x * d ^ 2 := by positivity
  have haux : (0 : ℝ) ≤ η ^ 2 + η * d + d ^ 2 := by
    nlinarith [sq_nonneg (2 * η + d), sq_nonneg d]
  have haux2 : (0 : ℝ) ≤ η ^ 2 - η * d + d ^ 2 := by
    nlinarith [sq_nonneg (2 * η - d), sq_nonneg d]
  have hup3 : d ^ 3 ≤ η ^ 3 := by
    nlinarith [mul_nonneg (sub_nonneg.mpr hd2) haux]
  have hlo3 : -(η ^ 3) ≤ d ^ 3 := by
    nlinarith [mul_nonneg (by linarith : (0 : ℝ) ≤ d + η) haux2]
  have hexp : (x + d) ^ (3 : ℕ) - x ^ (3 : ℕ) = 3 * x ^ 2 * d + 3 * x * d ^ 2 + d ^ 3 := by
    ring
  rw [hexp]
  have hη2 : η ^ 2 ≤ 1 / 10000000 * η := by nlinarith
  have hη3 : η ^ 3 ≤ 1 / 10000000 ^ 2 * η := by nlinarith [sq_nonneg η]
  constructor <;> nlinarith

end Jiv

namespace Jiv

theorem oklab_combine (r g b l m s D1 D2 D3 : ℝ)
    (hr0 : 0 ≤ r) (hr1 : r ≤ 1) (hg0 : 0 ≤ g) (hg1 : g ≤ 1) (hb0 : 0 ≤ b) (hb1 : b ≤ 1)
    (hl : l = 0.4122214708 * r + 0.5363325363 * g + 0.0514459929 * b)
    (hm : m = 0.2119034982 * r + 0.6806995451 * g + 0.1073969566 * b)
    (hs : s = 0.0883024619 * r + 0.2817188376 * g + 0.6299787005 * b)
    (hd1 : |D1| ≤ 11137/100000000000) (hd2 : |D2| ≤ 3612/100000000000)
    (hd3 : |D3| ≤ 19866/100000000000) :
    |4.0767416621 * (l + D1) - 3.3077115913 * (m + D2) + 0.2309699292 * (s + D3) - r| ≤
        63/100000000 ∧
    |(-1.2684380046) * (l + D1) + 2.6097574011 * (m + D2) - 0.3413193965 * (s + D3) - g| ≤
        63/100000000 ∧
    |(-0.0041960863) * (l + D1) - 0.7034186147 * (m + D2) + 1.7076147010 * (s + D3) - b| ≤
        63/100000000 := by
  rw [abs_le] at hd1 hd2 hd3
  subst hl hm hs
  refine ⟨?_, ?_, ?_⟩ <;> (rw [abs_le]; constructor) <;>
    linarith [hd1.1, hd1.2, hd2.1, hd2.2, hd3.1, hd3.2]

end Jiv

namespace Jiv

set_option maxHeartbeats 3200000 in
theorem oklab_core (r g b l m s v1 v2 v3 : ℝ)
    (hr0 : 0 ≤ r) (hr1 : r ≤ 1) (hg0 : 0 ≤ g) (hg1 : g ≤ 1) (hb0 : 0 ≤ b) (hb1 : b ≤ 1)
    (hl : l = 0.4122214708 * r + 0.5363325363 * g + 0.0514459929 * b)
    (hm : m = 0.2119034982 * r + 0.6806995451 * g + 0.1073969566 * b)
    (hs : s = 0.0883024619 * r + 0.2817188376 * g + 0.6299787005 * b)
    (hv10 : 0 ≤ v1) (hv11 : v1 ≤ 1) (hv1 : v1 ^ (3 : ℕ) = l)
    (hv20 : 0 ≤ v2) (hv21 : v2 ≤ 1) (hv2 : v2 ^ (3 : ℕ) = m)
    (hv30 : 0 ≤ v3) (hv31 : v3 ≤ 1) (hv3 : v3 ^ (3 : ℕ) = s) :
    |4.0767416621 *
        ((0.2104542553 * v1 + 0.7936177850 * v2 - 0.0040720468 * v3) +
          0.3963377774 * (1.9779984951 * v1 - 2.4285922050 * v2 + 0.4505937099 * v3) +
          0.2158037573 * (0.0259040371 * v1 + 0.7827717662 * v2 - 0.8086757660 * v3)) ^ (3 : ℕ) -
      3.3077115913 *
        ((0.2104542553 * v1 + 0.7936177850 * v2 - 0.0040720468 * v3) -
          0.1055613458 * (1.9779984951 * v1 - 2.4285922050 * v2 + 0.4505937099 * v3) -
          0.0638541728 * (0.0259040371 * v1 + 0.7827717662 * v2 - 0.8086757660 * v3)) ^ (3 : ℕ) +
      0.2309699292 *
        ((0.2104542553 * v1 + 0.7936177850 * v2 - 0.0040720468 * v3) -
          0.0894841775 * (1.9779984951 * v1 - 2.4285922050 * v2 + 0.4505937099 * v3) -
          1.2914855480 * (0.0259040371 * v1 + 0.7827717662 * v2 - 0.8086757660 * v3)) ^ (3 : ℕ) -
      r| ≤ 63/100000000 ∧
    |(-1.2684380046) *
        ((0.2104542553 * v1 + 0.7936177850 * v2 - 0.0040720468 * v3) +
          0.3963377774 * (1.9779984951 * v1 - 2.4285922050 * v2 + 0.4505937099 * v3) +
          0.2158037573 * (0.0259040371 * v1 + 0.7827717662 * v2 - 0.8086757660 * v3)) ^ (3 : ℕ) +
      2.6097574011 *
        ((0.2104542553 * v1 + 0.7936177850 * v2 - 0.0040720468 * v3) -
          0.1055613458 * (1.9779984951 * v1 - 2.4285922050 * v2 + 0.4505937099 * v3) -
          0.0638541728 * (0.0259040371 * v1 + 0.7827717662 * v2 - 0.8086757660 * v3)) ^ (3 : ℕ) -
      0.3413193965 *
        ((0.2104542553 * v1 + 0.7936177850 * v2 - 0.0040720468 * v3) -
          0.0894841775 * (1.9779984951 * v1 - 2.4285922050 * v2 + 0.4505937099 * v3) -
          1.2914855480 * (0.0259040371 * v1 + 0.7827717662 * v2 - 0.8086757660 * v3)) ^ (3 : ℕ) -
      g| ≤ 63/100000000 ∧
    |(-0.0041960863) *
        ((0.2104542553 * v1 + 0.7936177850 * v2 - 0.0040720468 * v3) +
          0.3963377774 * (1.9779984951 * v1 - 2.4285922050 * v2 + 0.4505937099 * v3) +
          0.2158037573 * (0.0259040371 * v1 + 0.7827717662 * v2 - 0.8086757660 * v3)) ^ (3 : ℕ) -
      0.7034186147 *
        ((0.2104542553 * v1 + 0.7936177850 * v2 - 0.0040720468 * v3) -
          0.1055613458 * (1.9779984951 * v1 - 2.4285922050 * v2 + 0.4505937099 * v3) -
          0.0638541728 * (0.0259040371 * v1 + 0.7827717662 * v2 - 0.8086757660 * v3)) ^ (3 : ℕ) +
      1.7076147010 *
        ((0.2104542553 * v1 + 0.7936177850 * v2 - 0.0040720468 * v3) -
          0.0894841775 * (1.9779984951 * v1 - 2.4285922050 * v2 + 0.4505937099 * v3) -
          1.2914855480 * (0.0259040371 * v1 + 0.7827717662 * v2 - 0.8086757660 * v3)) ^ (3 : ℕ) -
      b| ≤ 63/100000000 := by
  have he1 : |((0.2104542553 * v1 + 0.7936177850 * v2 - 0.0040720468 * v3) +
      0.3963377774 * (1.9779984951 * v1 - 2.4285922050 * v2 + 0.4505937099 * v3) +
      0.2158037573 * (0.0259040371 * v1 + 0.7827717662 * v2 - 0.8086757660 * v3)) - v1| ≤
      37/1000000000 := by
    rw [abs_le]
    constructor <;> linarith
  have he2 : |((0.2104542553 * v1 + 0.7936177850 * v2 - 0.0040720468 * v3) -
      0.1055613458 * (1.9779984951 * v1 - 2.4285922050 * v2 + 0.4505937099 * v3) -
      0.0638541728 * (0.0259040371 * v1 + 0.7827717662 * v2 - 0.8086757660 * v3)) - v2| ≤
      12/1000000000 := by
    rw [abs_le]
    constructor <;> linarith
  have he3 : |((0.2104542553 * v1 + 0.7936177850 * v2 - 0.0040720468 * v3) -
      0.0894841775 * (1.9779984951 * v1 - 2.4285922050 * v2 + 0.4505937099 * v3) -
      1.2914855480 * (0.0259040371 * v1 + 0.7827717662 * v2 - 0.8086757660 * v3)) - v3| ≤
      66/1000000000 := by
    rw [abs_le]
    constructor <;> linarith
  have hc1 := cube_perturb v1 (((0.2104542553 * v1 + 0.7936177850 * v2 - 0.0040720468 * v3) +
      0.3963377774 * (1.9779984951 * v1 - 2.4285922050 * v2 + 0.4505937099 * v3) +
      0.2158037573 * (0.0259040371 * v1 + 0.7827717662 * v2 - 0.8086757660 * v3)) - v1)
    (37/1000000000) hv10 hv11 (by norm_num) (by norm_num) he1
  have hc2 := cube_perturb v2 (((0.2104542553 * v1 + 0.7936177850 * v2 - 0.0040720468 * v3) -
      0.1055613458 * (1.9779984951 * v1 - 2.4285922050 * v2 + 0.4505937099 * v3) -
      0.0638541728 * (0.0259040371 * v1 + 0.7827717662 * v2 - 0.8086757660 * v3)) - v2)
    (12/1000000000) hv20 hv21 (by norm_num) (by norm_num) he2
  have hc3 := cube_perturb v3 (((0.2104542553 * v1 + 0.7936177850 * v2 - 0.0040720468 * v3) -
      0.0894841775 * (1.9779984951 * v1 - 2.4285922050 * v2 + 0.4505937099 * v3) -
      1.2914855480 * (0.0259040371 * v1 + 0.7827717662 * v2 - 0.8086757660 * v3)) - v3)
    (66/1000000000) hv30 hv31 (by norm_num) (by norm_num) he3
  rw [show ∀ u w : ℝ, u + (w - u) = w from fun u w => by ring] at hc1 hc2 hc3
  rw [hv1] at hc1
  rw [hv2] at hc2
  rw [hv3] at hc3
  have hnum1 : (301 : ℝ)/100 * (37/1000000000) = 11137/100000000000 := by norm_num
  have hnum2 : (301 : ℝ)/100 * (12/1000000000) = 3612/100000000000 := by norm_num
  have hnum3 : (301 : ℝ)/100 * (66/1000000000) = 19866/100000000000 := by norm_num
  rw [hnum1] at hc1
  rw [hnum2] at hc2
  rw [hnum3] at hc3
  have H := oklab_combine r g b l m s _ _ _ hr0 hr1 hg0 hg1 hb0 hb1 hl hm hs hc1 hc2 hc3
  simp only [show ∀ u w : ℝ, u + (w - u) = w from fun u w => by ring] at H
  exact H

end Jiv

namespace Jiv

theorem cbrtR_cube (x : ℝ) (hx : 0 ≤ x) : cbrtR x ^ (3 : ℕ) = x := by
  rw [cbrtR, if_pos hx]
  exact cbrt_cube x hx

theorem cbrtR_mem (x : ℝ) (h0 : 0 ≤ x) (h1 : x ≤ 1) : 0 ≤ cbrtR x ∧ cbrtR x ≤ 1 := by
  rw [cbrtR, if_pos h0]
  exact ⟨Real.rpow_nonneg h0 _, Real.rpow_le_one h0 h1 (by norm_num)⟩

theorem srgb_to_linearR_mem (x : ℝ) (h0 : 0 ≤ x) (h1 : x ≤ 1) :
    0 ≤ srgb_to_linearR x ∧ srgb_to_linearR x ≤ 1 := by
  rw [srgb_to_linearR]
  split
  · constructor
    · positivity
    · rw [div_le_one (by norm_num)]
      linarith
  · rename_i hgt
    push_neg at hgt
    constructor
    · exact Real.rpow_nonneg (by positivity) _
    · exact Real.rpow_le_one (by positivity)
        (by rw [div_le_one (by norm_num)]; linarith) (by norm_num)

theorem oklab_roundtrip_linearR (r g b : ℝ)
    (hr0 : 0 ≤ r) (hr1 : r ≤ 1) (hg0 : 0 ≤ g) (hg1 : g ≤ 1) (hb0 : 0 ≤ b) (hb1 : b ≤ 1) :
    |(oklab_to_linearR (linear_to_oklabR r g b).1 (linear_to_oklabR r g b).2.1
        (linear_to_oklabR r g b).2.2).1 - r| ≤ 63/100000000 ∧
    |(oklab_to_linearR (linear_to_oklabR r g b).1 (linear_to_oklabR r g b).2.1
        (linear_to_oklabR r g b).2.2).2.1 - g| ≤ 63/100000000 ∧
    |(oklab_to_linearR (linear_to_oklabR r g b).1 (linear_to_oklabR r g b).2.1
        (linear_to_oklabR r g b).2.2).2.2 - b| ≤ 63/100000000 := by
  have hl0 : (0 : ℝ) ≤ 0.4122214708 * r + 0.5363325363 * g + 0.0514459929 * b := by positivity
  have hl1 : 0.4122214708 * r + 0.5363325363 * g + 0.0514459929 * b ≤ 1 := by linarith
  have hm0 : (0 : ℝ) ≤ 0.2119034982 * r + 0.6806995451 * g + 0.1073969566 * b := by positivity
  have hm1 : 0.2119034982 * r + 0.6806995451 * g + 0.1073969566 * b ≤ 1 := by linarith
  have hs0 : (0 : ℝ) ≤ 0.0883024619 * r + 0.2817188376 * g + 0.6299787005 * b := by positivity
  have hs1 : 0.0883024619 * r + 0.2817188376 * g + 0.6299787005 * b ≤ 1 := by linarith
  obtain ⟨hv10, hv11⟩ := cbrtR_mem _ hl0 hl1
  obtain ⟨hv20, hv21⟩ := cbrtR_mem _ hm0 hm1
  obtain ⟨hv30, hv31⟩ := cbrtR_mem _ hs0 hs1
  simp only [linear_to_oklabR, oklab_to_linearR]
  exact oklab_core r g b _ _ _
    (cbrtR (0.4122214708 * r + 0.5363325363 * g + 0.0514459929 * b))
    (cbrtR (0.2119034982 * r + 0.6806995451 * g + 0.1073969566 * b))
    (cbrtR (0.0883024619 * r + 0.2817188376 * g + 0.6299787005 * b))
    hr0 hr1 hg0 hg1 hb0 hb1 rfl rfl rfl
    hv10 hv11 (cbrtR_cube _ hl0) hv20 hv21 (cbrtR_cube _ hm0) hv30 hv31 (cbrtR_cube _ hs0)

end Jiv

namespace Jiv

theorem l2sR_diff_abs (a b : ℝ) :
    |linear_to_srgbR b - linear_to_srgbR a| ≤ 12.92 * |b - a| + 3/100000000 := by
  rcases le_total a b with h | h
  · have := l2sR_diff a b h
    rw [abs_of_nonneg (by linarith : (0:ℝ) ≤ b - a)]
    linarith
  · have := l2sR_diff b a h
    rw [abs_sub_comm, abs_sub_comm b a, abs_of_nonneg (by linarith : (0:ℝ) ≤ a - b)]
    linarith

/-- C8: for every x in [0,1], linear_to_srgb (srgb_to_linear x) equals x to
within 1e-5, and oklab_to_srgb composed with srgb_to_oklab returns the input
(r,g,b) to within the same tolerance componentwise. -/
theorem c8_color_roundtrips :
    (∀ x : ℝ, 0 ≤ x → x ≤ 1 → |linear_to_srgbR (srgb_to_linearR x) - x| ≤ 1/100000) ∧
    (∀ r g b : ℝ, 0 ≤ r → r ≤ 1 → 0 ≤ g → g ≤ 1 → 0 ≤ b → b ≤ 1 →
      |(oklab_to_srgbR (srgb_to_oklabR r g b).1 (srgb_to_oklabR r g b).2.1
          (srgb_to_oklabR r g b).2.2).1 - r| ≤ 1/100000 ∧
      |(oklab_to_srgbR (srgb_to_oklabR r g b).1 (srgb_to_oklabR r g b).2.1
          (srgb_to_oklabR r g b).2.2).2.1 - g| ≤ 1/100000 ∧
      |(oklab_to_srgbR (srgb_to_oklabR r g b).1 (srgb_to_oklabR r g b).2.1
          (srgb_to_oklabR r g b).2.2).2.2 - b| ≤ 1/100000) := by
  constructor
  · intro x _ _
    have := srgb_roundtripR x
    linarith [this, abs_nonneg (linear_to_srgbR (srgb_to_linearR x) - x)]
  · intro r g b hr0 hr1 hg0 hg1 hb0 hb1
    obtain ⟨hlr0, hlr1⟩ := srgb_to_linearR_mem r hr0 hr1
    obtain ⟨hlg0, hlg1⟩ := srgb_to_linearR_mem g hg0 hg1
    obtain ⟨hlb0, hlb1⟩ := srgb_to_linearR_mem b hb0 hb1
    obtain ⟨hcr, hcg, hcb⟩ := oklab_roundtrip_linearR (srgb_to_linearR r) (srgb_to_linearR g)
      (srgb_to_linearR b) hlr0 hlr1 hlg0 hlg1 hlb0 hlb1
    simp only [oklab_to_srgbR, srgb_to_oklabR]
    refine ⟨?_, ?_, ?_⟩
    · have htri := abs_sub_le
        (linear_to_srgbR (oklab_to_linearR
          (linear_to_oklabR (srgb_to_linearR r) (srgb_to_linearR g) (srgb_to_linearR b)).1
          (linear_to_oklabR (srgb_to_linearR r) (srgb_to_linearR g) (srgb_to_linearR b)).2.1
          (linear_to_oklabR (srgb_to_linearR r) (srgb_to_linearR g) (srgb_to_linearR b)).2.2).1)
        (linear_to_srgbR (srgb_to_linearR r)) r
      have hdiff := l2sR_diff_abs (srgb_to_linearR r)
        ((oklab_to_linearR
          (linear_to_oklabR (srgb_to_linearR r) (srgb_to_linearR g) (srgb_to_linearR b)).1
          (linear_to_oklabR (srgb_to_linearR r) (srgb_to_linearR g) (srgb_to_linearR b)).2.1
          (linear_to_oklabR (srgb_to_linearR r) (srgb_to_linearR g) (srgb_to_linearR b)).2.2).1)
      have hrt := srgb_roundtripR r
      linarith [htri, hdiff, hrt, hcr]
    · have htri := abs_sub_le
        (linear_to_srgbR (oklab_to_linearR
          (linear_to_oklabR (srgb_to_linearR r) (srgb_to_linearR g) (srgb_to_linearR b)).1
          (linear_to_oklabR (srgb_to_linearR r) (srgb_to_linearR g) (srgb_to_linearR b)).2.1
          (linear_to_oklabR (srgb_to_linearR r) (srgb_to_linearR g) (srgb_to_linearR b)).2.2).2.1)
        (linear_to_srgbR (srgb_to_linearR g)) g
      have hdiff := l2sR_diff_abs (srgb_to_linearR g)
        ((oklab_to_linearR
          (linear_to_oklabR (srgb_to_linearR r) (srgb_to_linearR g) (srgb_to_linearR b)).1
          (linear_to_oklabR (srgb_to_linearR r) (srgb_to_linearR g) (srgb_to_linearR b)).2.1
          (linear_to_oklabR (srgb_to_linearR r) (srgb_to_linearR g) (srgb_to_linearR b)).2.2).2.1)
      have hrt := srgb_roundtripR g
      linarith [htri, hdiff, hrt, hcg]
    · have htri := abs_sub_le
        (linear_to_srgbR (oklab_to_linearR
          (linear_to_oklabR (srgb_to_linearR r) (srgb_to_linearR g) (srgb_to_linearR b)).1
          (linear_to_oklabR (srgb_to_linearR r) (srgb_to_linearR g) (srgb_to_linearR b)).2.1
          (linear_to_oklabR (srgb_to_linearR r) (srgb_to_linearR g) (srgb_to_linearR b)).2.2).2.2)
        (linear_to_srgbR (srgb_to_linearR b)) b
      have hdiff := l2sR_diff_abs (srgb_to_linearR b)
        ((oklab_to_linearR
          (linear_to_oklabR (srgb_to_linearR r) (srgb_to_linearR g) (srgb_to_linearR b)).1
          (linear_to_oklabR (srgb_to_linearR r) (srgb_to_linearR g) (srgb_to_linearR b)).2.1
          (linear_to_oklabR (srgb_to_linearR r) (srgb_to_linearR g) (srgb_to_linearR b)).2.2).2.2)
      have hrt := srgb_roundtripR b
      linarith [htri, hdiff, hrt, hcb]

theorem c8_color_roundtrips_witness :
    |linear_to_srgbR (srgb_to_linearR (1/2)) - 1/2| ≤ 1/100000 ∧
    |(oklab_to_srgbR (srgb_to_oklabR (1/2) (1/2) (1/2)).1
        (srgb_to_oklabR (1/2) (1/2) (1/2)).2.1
        (srgb_to_oklabR (1/2) (1/2) (1/2)).2.2).1 - 1/2| ≤ 1/100000 :=
  ⟨c8_color_roundtrips.1 (1/2) one_half_pos.le one_half_lt_one.le,
   (c8_color_roundtrips.2 (1/2) (1/2) (1/2)
      one_half_pos.le one_half_lt_one.le one_half_pos.le one_half_lt_one.le
      one_half_pos.le one_half_lt_one.le).1⟩

end Jiv
